import Mathlib

/-!
Verification development for the `teardown` mobile build inspector.

This file shallowly embeds the decoders of the repository — the binary
property list (bplist00) decoder, the protobuf wire-format reader and
AAPT2 proto-XML walker, the Android binary XML (AXML) decoder, the CgBI
PNG pixel restorer, and the APK / IPA manifest projectors — as executable
Lean definitions, and proves properties of those definitions.

Modelling conventions, used throughout:

* JavaScript byte buffers (`Uint8Array`) are `List Nat`, each entry `< 256`
  on real inputs.  `byteAt` reads with default `0`; JS returns `undefined`
  for an out-of-range index, which propagates as `NaN` through arithmetic
  and coerces to `0` when masked or stored into a `Uint8Array`.  For the
  inputs exercised by the theorems below every read is in range, so the
  default never matters; where the two semantics could diverge on
  malformed input it is noted at the definition.
* JS strings are Lean `String`s (sequences of characters; JS's UTF-16
  code-unit view only differs on astral/surrogate content, which no
  theorem here touches).
* Dynamically typed JS values are the inductive `JsVal` (XML attribute
  values) and `PValue` (plist values).  JS `null` and `undefined` are
  distinct values and are modelled by distinct constructors, since the
  source distinguishes them (`typed !== undefined`, `=== true`, `?? null`).
* IEEE-754 values produced by the decoders are carried as their raw bit
  patterns (`float32` / `real`); no theorem inspects a float's numeric
  value, only which constructor an attribute receives.
* Code that can throw is embedded in `Except`; a thrown `RangeError` from
  an out-of-bounds `DataView` / `Uint8Array` access is an error value.
* Unbounded recursion driven by untrusted object references (the bplist
  object graph, the proto-XML node nesting) is embedded with explicit
  fuel; exhausted fuel (`none`) corresponds to a JS run that never
  returns (unbounded recursion / stack overflow).
-/

/-- A byte read from a `Uint8Array`: out-of-range reads default to 0
(in JS they produce `undefined`; all theorems below only read in range). -/
def byteAt (bytes : List Nat) (i : Nat) : Nat := bytes.getD i 0

/-- Dynamically-typed JS value as it appears in XML attribute maps.
`complex` carries an AXML fixed-point dimension/fraction value together
with its rendered unit suffix (JS renders `complexToFloat(data) + suffix`;
the raw `data` word is kept, which determines the float exactly).
`float32` carries raw IEEE-754 bits. -/
inductive JsVal where
  | null
  | undefVal
  | str (s : String)
  | int (n : Int)
  | bool (b : Bool)
  | float32 (bits : Nat)
  | complex (data : Nat) (suffix : String)
  deriving DecidableEq, Repr

/-- JS truthiness for the values above (`''`, `0`, `false`, `null`,
`undefined` are falsy).  A `float32` is falsy when its bits are an
encoding of zero; no theorem depends on the float case. -/
def jsTruthy : JsVal → Bool
  | .null => false
  | .undefVal => false
  | .str s => s ≠ ""
  | .int n => n ≠ 0
  | .bool b => b
  | .float32 bits => bits ≠ 0 && bits ≠ 0x80000000
  | .complex _ _ => true

/-- JS `a ?? b` (nullish coalescing): `null`/`undefined` fall through. -/
def jsNullish (v fallback : JsVal) : JsVal :=
  match v with
  | .null => fallback
  | .undefVal => fallback
  | v => v

/-- JS `a || b`. -/
def jsOr (v fallback : JsVal) : JsVal := if jsTruthy v then v else fallback

/-- Property read on a JS object with string keys (`obj[k]`):
absent keys give `undefined`. -/
def jsGet (obj : List (String × JsVal)) (k : String) : JsVal :=
  match obj.find? (fun e => e.1 = k) with
  | some e => e.2
  | none => .undefVal

/-- Property write on a JS object (`obj[k] = v`): an existing key keeps
its position, a new key is appended (JS property insertion order). -/
def jsSet (obj : List (String × JsVal)) (k : String) (v : JsVal) :
    List (String × JsVal) :=
  if obj.any (fun e => e.1 = k) then
    obj.map (fun e => if e.1 = k then (k, v) else e)
  else obj ++ [(k, v)]

/-- `n.toString(16)` for a JS non-negative integer. -/
def jsHex (n : Nat) : String := String.mk (Nat.toDigits 16 n)

/-- Decode a UTF-8 byte sequence to characters (`TextDecoder('utf-8')`).
Malformed sequences become U+FFFD; the exact replacement-run behaviour of
`TextDecoder` on malformed input is approximated (every theorem below
only decodes plain ASCII, where this is exact). -/
def utf8CharsGo : Nat → List Nat → List Char
  | 0, _ => []
  | _, [] => []
  | fuel + 1, b1 :: rest =>
    if b1 < 0x80 then Char.ofNat b1 :: utf8CharsGo fuel rest
    else if b1 < 0xC0 then '�' :: utf8CharsGo fuel rest
    else if b1 < 0xE0 then
      match rest with
      | b2 :: rest2 =>
        if 0x80 ≤ b2 ∧ b2 < 0xC0 then
          Char.ofNat ((b1 - 0xC0) * 64 + (b2 - 0x80)) :: utf8CharsGo fuel rest2
        else '�' :: utf8CharsGo fuel rest
      | [] => ['�']
    else if b1 < 0xF0 then
      match rest with
      | b2 :: b3 :: rest3 =>
        if (0x80 ≤ b2 ∧ b2 < 0xC0) ∧ (0x80 ≤ b3 ∧ b3 < 0xC0) then
          Char.ofNat ((b1 - 0xE0) * 4096 + (b2 - 0x80) * 64 + (b3 - 0x80)) ::
            utf8CharsGo fuel rest3
        else '�' :: utf8CharsGo fuel rest
      | _ => ['�']
    else
      match rest with
      | b2 :: b3 :: b4 :: rest4 =>
        if (0x80 ≤ b2 ∧ b2 < 0xC0) ∧ (0x80 ≤ b3 ∧ b3 < 0xC0) ∧
            (0x80 ≤ b4 ∧ b4 < 0xC0) then
          Char.ofNat ((b1 - 0xF0) * 262144 + (b2 - 0x80) * 4096 +
            (b3 - 0x80) * 64 + (b4 - 0x80)) :: utf8CharsGo fuel rest4
        else '�' :: utf8CharsGo fuel rest
      | _ => ['�']

/-- `TextDecoder('utf-8').decode` as a Lean `String` (the counter
`bytes.length` dominates the step count, since every step consumes at
least one byte). -/
def utf8Decode (bytes : List Nat) : String :=
  String.mk (utf8CharsGo bytes.length bytes)

/-- `String.fromCharCode` applied to a list of (byte-sized) code units. -/
def asciiOf (bytes : List Nat) : String := String.mk (bytes.map Char.ofNat)

/-! ## Binary property list decoder (`src/js/bplist-parser.js`)

`BPlistParser` reads the trailer, loads the offset table, then decodes
objects recursively from the top object index.  The JS decoder keeps a
`Map` cache `_parsed` from object index to parsed value; `_parseObject`
consults it on entry and stores into it **after** the object's value has
been fully built.  The recursion through object references is not
structurally bounded, so it is embedded with fuel: a `none` result means
the recursion exceeded every finite bound (in JS: unbounded recursion
until stack overflow).

Numeric reads use `byteAt` (default 0); on the buffers used by the
theorems every read is in range.  `real`/`date` values keep the raw
big-endian bits instead of interpreting IEEE-754. -/

/-- Dynamically-typed plist value tree produced by `BPlistParser`.
`null` and `undef` model the distinct JS values `null` and `undefined`.
`dict` keys are the JS object keys, i.e. the parsed key values coerced
to strings. -/
inductive PValue where
  | null
  | undefVal
  | bool (b : Bool)
  | int (n : Nat)
  | real (size : Nat) (bits : Nat)
  | data (bytes : List Nat)
  | ascii (s : String)
  | unicode (s : String)
  | date (bits : Nat)
  | uid (n : Nat)
  | array (elems : List PValue)
  | dict (entries : List (String × PValue))
  deriving Repr

/- JS string coercion `String(v)` for a parsed plist value, as used for
`dict[key] = value` object keys.  Keys are in practice always ASCII or
UTF-16 strings; `real`/`date` keys would render as the float's decimal /
the locale date string in JS and are carried as placeholders here (no
theorem exercises them). -/
mutual

/-- JS `String(v)` coercion for a plist value (see comment above). -/
def pToKey : PValue → String
  | .null => "null"
  | .undefVal => "undefined"
  | .bool b => if b then "true" else "false"
  | .int n => toString n
  | .real _ _ => "[number]"
  | .data bs => String.intercalate "," (bs.map (fun b => toString b))
  | .ascii s => s
  | .unicode s => s
  | .date _ => "[date]"
  | .uid _ => "[object Object]"
  | .dict _ => "[object Object]"
  | .array vs => String.intercalate "," (pToKeyJoin vs)

/-- `Array.prototype.join` element rendering: `null`/`undefined` render
as the empty string. -/
def pToKeyJoin : List PValue → List String
  | [] => []
  | .null :: rest => "" :: pToKeyJoin rest
  | .undefVal :: rest => "" :: pToKeyJoin rest
  | v :: rest => pToKey v :: pToKeyJoin rest

end

/-- `Map.get` on the decode cache (assoc list by object index). -/
def memoLookup (memo : List (Nat × PValue)) (index : Nat) : Option PValue :=
  (memo.find? (fun e => e.1 = index)).map (fun e => e.2)

/-- `Map.set` on the decode cache. -/
def memoSet (memo : List (Nat × PValue)) (index : Nat) (v : PValue) :
    List (Nat × PValue) :=
  if memo.any (fun e => e.1 = index) then
    memo.map (fun e => if e.1 = index then (index, v) else e)
  else memo ++ [(index, v)]

/-- `_readBigEndian(offset, size)`. -/
def readBE (bytes : List Nat) (offset size : Nat) : Nat :=
  (List.range size).foldl (fun v i => v * 256 + byteAt bytes (offset + i)) 0

/-- `_ascii(offset, len)`: `String.fromCharCode` over `len` bytes. -/
def asciiAt (bytes : List Nat) (offset len : Nat) : String :=
  asciiOf ((List.range len).map (fun i => byteAt bytes (offset + i)))

/-- `_getCount(offset, info)`: `(count, headerLen)`, handling the 0x0F
extension byte. -/
def bpGetCount (bytes : List Nat) (offset info : Nat) : Nat × Nat :=
  if info ≠ 0x0f then (info, 1)
  else
    let intMarker := byteAt bytes (offset + 1)
    let intInfo := intMarker % 16
    let byteCount := 2 ^ intInfo
    (readBE bytes (offset + 2) byteCount, 2 + byteCount)

/-- `_parseSimple(info)`. -/
def bpParseSimple (info : Nat) : PValue :=
  if info = 0x08 then .bool false
  else if info = 0x09 then .bool true
  else .null

/-- `_parseReal(offset, info)`: raw big-endian bits of the 4- or 8-byte
float; other sizes return the number 0. -/
def bpParseReal (bytes : List Nat) (offset info : Nat) : PValue :=
  let byteCount := 2 ^ info
  if byteCount = 4 then .real 4 (readBE bytes (offset + 1) 4)
  else if byteCount = 8 then .real 8 (readBE bytes (offset + 1) 8)
  else .int 0


/-- `_parseInt(offset, info)`: big-endian integer of `1 << info` bytes. -/
def bpParseInt (bytes : List Nat) (offset info : Nat) : PValue :=
  .int (readBE bytes (offset + 1) (2 ^ info))

/-- `_parseDate(offset)`: raw big-endian bits of the 8-byte seconds value
(JS builds a `Date` from it; the bits determine it exactly). -/
def bpParseDate (bytes : List Nat) (offset : Nat) : PValue :=
  .date (readBE bytes (offset + 1) 8)

/-- `_parseData(offset, info)`: `bytes.slice` clamps to the buffer end,
exactly as `List.drop/take` do. -/
def bpParseData (bytes : List Nat) (offset info : Nat) : PValue :=
  let c := bpGetCount bytes offset info
  .data ((bytes.drop (offset + c.2)).take c.1)

/-- `_parseAscii(offset, info)`. -/
def bpParseAscii (bytes : List Nat) (offset info : Nat) : PValue :=
  let c := bpGetCount bytes offset info
  .ascii (asciiAt bytes (offset + c.2) c.1)

/-- `_parseUnicode(offset, info)`: big-endian UTF-16 code units read with
`String.fromCharCode` per unit.  (JS `getUint16` would throw on a
truncated buffer; no theorem reads out of range here.  Lone surrogate
units have no `Char` counterpart and collapse to `'\0'`.) -/
def bpParseUnicode (bytes : List Nat) (offset info : Nat) : PValue :=
  let c := bpGetCount bytes offset info
  let start := offset + c.2
  .unicode (String.mk ((List.range c.1).map
    (fun i => Char.ofNat (byteAt bytes (start + 2 * i) * 256 +
      byteAt bytes (start + 2 * i + 1)))))

/-- `_parseUid(offset, info)`. -/
def bpParseUid (bytes : List Nat) (offset info : Nat) : PValue :=
  .uid (readBE bytes (offset + 1) (info + 1))

/-- Property write `obj[k] = v` on a plist dict object (same JS object
semantics as `jsSet`). -/
def pObjSet (obj : List (String × PValue)) (k : String) (v : PValue) :
    List (String × PValue) :=
  if obj.any (fun e => e.1 = k) then
    obj.map (fun e => if e.1 = k then (k, v) else e)
  else obj ++ [(k, v)]

mutual

/-- `_parseObject(index)` with explicit fuel.  Faithfully to the source,
the cache is consulted first and written **only after** the value has
been fully parsed; an object that is still being resolved is *not* in
the cache, so a cyclic reference re-enters `_parseObject` for the same
index.  A `none` result means the fuel bound was exceeded.  An index
outside the offset table collapses to marker `0`/`null` exactly as JS's
`undefined` index arithmetic does. -/
def bpParseObject (bytes : List Nat) (offsets : List Nat) (refSize : Nat) :
    Nat → List (Nat × PValue) → Nat → Option PValue × List (Nat × PValue)
  | 0, memo, _ => (none, memo)
  | fuel + 1, memo, index =>
    match memoLookup memo index with
    | some v => (some v, memo)
    | none =>
      match offsets.get? index with
      | none => (some .null, memoSet memo index .null)
      | some offset =>
        let marker := byteAt bytes offset
        let type := marker / 16
        let info := marker % 16
        if type = 0x0 then
          let v := bpParseSimple info
          (some v, memoSet memo index v)
        else if type = 0x1 then
          let v := bpParseInt bytes offset info
          (some v, memoSet memo index v)
        else if type = 0x2 then
          let v := bpParseReal bytes offset info
          (some v, memoSet memo index v)
        else if type = 0x3 then
          let v := bpParseDate bytes offset
          (some v, memoSet memo index v)
        else if type = 0x4 then
          let v := bpParseData bytes offset info
          (some v, memoSet memo index v)
        else if type = 0x5 then
          let v := bpParseAscii bytes offset info
          (some v, memoSet memo index v)
        else if type = 0x6 then
          let v := bpParseUnicode bytes offset info
          (some v, memoSet memo index v)
        else if type = 0x8 then
          let v := bpParseUid bytes offset info
          (some v, memoSet memo index v)
        else if type = 0xa ∨ type = 0xc then
          let c := bpGetCount bytes offset info
          match bpParseRefs bytes offsets refSize fuel memo (offset + c.2) c.1 with
          | (none, memo1) => (none, memo1)
          | (some vs, memo1) =>
            let v := PValue.array vs
            (some v, memoSet memo1 index v)
        else if type = 0xd then
          let c := bpGetCount bytes offset info
          let keysStart := offset + c.2
          match bpParseDictGo bytes offsets refSize fuel memo keysStart
              (keysStart + c.1 * refSize) c.1 [] with
          | (none, memo1) => (none, memo1)
          | (some entries, memo1) =>
            let v := PValue.dict entries
            (some v, memoSet memo1 index v)
        else
          (some .undefVal, memoSet memo index .undefVal)
termination_by fuel memo index => (fuel, 0)

/-- The object-reference loop of `_parseArray` (`count` refs of
`objectRefSize` bytes each, starting at `p`). -/
def bpParseRefs (bytes : List Nat) (offsets : List Nat) (refSize : Nat)
    (fuel : Nat) :
    List (Nat × PValue) → Nat → Nat → Option (List PValue) × List (Nat × PValue)
  | memo, _, 0 => (some [], memo)
  | memo, p, n + 1 =>
    let ref := readBE bytes p refSize
    match bpParseObject bytes offsets refSize fuel memo ref with
    | (none, memo1) => (none, memo1)
    | (some v, memo1) =>
      match bpParseRefs bytes offsets refSize fuel memo1 (p + refSize) n with
      | (none, memo2) => (none, memo2)
      | (some vs, memo2) => (some (v :: vs), memo2)
termination_by memo p n => (fuel, n + 1)

/-- The key/value loop of `_parseDict`: per entry, the key ref is parsed,
then the value ref, then `dict[String(key)] = value`. -/
def bpParseDictGo (bytes : List Nat) (offsets : List Nat) (refSize : Nat)
    (fuel : Nat) :
    List (Nat × PValue) → Nat → Nat → Nat → List (String × PValue) →
      Option (List (String × PValue)) × List (Nat × PValue)
  | memo, _, _, 0, acc => (some acc, memo)
  | memo, kp, vp, n + 1, acc =>
    let kRef := readBE bytes kp refSize
    let vRef := readBE bytes vp refSize
    match bpParseObject bytes offsets refSize fuel memo kRef with
    | (none, memo1) => (none, memo1)
    | (some k, memo1) =>
      match bpParseObject bytes offsets refSize fuel memo1 vRef with
      | (none, memo2) => (none, memo2)
      | (some v, memo2) =>
        bpParseDictGo bytes offsets refSize fuel memo2 (kp + refSize)
          (vp + refSize) n (pObjSet acc (pToKey k) v)
termination_by memo kp vp n acc => (fuel, n + 1)

end

/-- Error thrown by `BPlistParser.parse`. -/
inductive BplistErr where
  | notBplist
  deriving DecidableEq, Repr

/-- `BPlistParser.parse()` with explicit fuel for the object recursion:
magic check, trailer, offset table, then the top object.
`.ok none` means the object recursion exceeded the fuel bound. -/
def bplistParse (fuel : Nat) (bytes : List Nat) :
    Except BplistErr (Option PValue) :=
  if asciiAt bytes 0 6 ≠ "bplist" then .error .notBplist
  else
    let tOff := bytes.length - 32
    let offsetIntSize := byteAt bytes (tOff + 6)
    let refSize := byteAt bytes (tOff + 7)
    let numObjects := readBE bytes (tOff + 8) 8
    let topIndex := readBE bytes (tOff + 16) 8
    let tableOffset := readBE bytes (tOff + 24) 8
    let offsets := (List.range numObjects).map
      (fun i => readBE bytes (tableOffset + i * offsetIntSize) offsetIntSize)
    .ok (bpParseObject bytes offsets refSize fuel [] topIndex).1

/-! ## Protobuf wire-format decoder and proto-XML walker
(`src/js/proto-xml-parser.js`)

`ProtoDecoder.readFields` turns a byte range into a list of
`(fieldNumber, wireType, value)` entries in parse order; length-delimited
values are `(offset, length)` slice references into the shared buffer.
`ProtoXMLParser` walks that index along the AAPT2 `XmlNode` schema.

Throw sites (`DataView.getUint32` for fixed32/64, `new Uint8Array(buf,
off, len)` for string slices) are embedded as `Except Unit` errors
(`()` stands for the thrown `RangeError`).  The field loop consumes at
least one byte per iteration, so the explicit fuel `endp + 1` given to
it below strictly dominates the possible iteration count and is never
exhausted; the walker's fuel likewise dominates its nesting depth. -/

/-- A decoded protobuf field value: either a number (varint / fixed) or a
slice reference `{off, len}` into the shared buffer. -/
inductive PVal where
  | n (v : Nat)
  | slice (off len : Nat)
  deriving DecidableEq, Repr

/-- The field index produced by `readFields`:
`(fieldNumber, wireType, value)` in parse order. -/
abbrev ProtoFields : Type := List (Nat × Nat × PVal)

/-- The entry list `fields[num]` (all entries for one field number, in
parse order). -/
def getField (fs : ProtoFields) (num : Nat) : List (Nat × PVal) :=
  fs.filterMap (fun e => if e.1 = num then some e.2 else none)

/-- `fields[num] && fields[num][0]`: the first entry for a field number. -/
def firstEntry (fs : ProtoFields) (num : Nat) : Option (Nat × PVal) :=
  (getField fs num).head?

/-- The `_varint()` loop, with the loop bound `endp - pos` as a
structural counter (`remaining = 0` exactly when `pos ≥ endp`, and each
iteration advances `pos` by one): accumulates 7 payload bits per byte
while `s < 28` (higher bits are dropped by the 32-bit shift), stops
after a byte with the high bit clear.  Returns `(value, newPos)`. -/
def pvarintGo (bytes : List Nat) : Nat → Nat → Nat → Nat → Nat × Nat
  | 0, pos, r, _ => (r, pos)
  | remaining + 1, pos, r, s =>
    let b := byteAt bytes pos
    let r1 := if s < 28 then r ||| ((b &&& 0x7f) <<< s) else r
    if b &&& 0x80 = 0 then (r1, pos + 1)
    else pvarintGo bytes remaining (pos + 1) r1 (s + 7)

/-- `_varint()` reading from `pos` up to `endp`. -/
def pvarint (bytes : List Nat) (endp : Nat) (pos r s : Nat) : Nat × Nat :=
  pvarintGo bytes (endp - pos) pos r s

/-- `DataView.getUint32(pos, true)`: little-endian u32, `RangeError`
when the read crosses the end of the buffer. -/
def getU32LE (bytes : List Nat) (pos : Nat) : Except Unit Nat :=
  if pos + 4 ≤ bytes.length then
    .ok (byteAt bytes pos + byteAt bytes (pos + 1) * 256 +
      byteAt bytes (pos + 2) * 65536 + byteAt bytes (pos + 3) * 16777216)
  else .error ()

/-- The `readFields` loop.  Each iteration consumes at least one byte
(the tag varint), so with fuel `endp + 1` the fuel case is unreachable;
it conservatively returns the fields parsed so far. -/
def readFieldsGo (bytes : List Nat) (endp : Nat) :
    Nat → Nat → ProtoFields → Except Unit ProtoFields
  | 0, _, acc => .ok acc
  | fuel + 1, pos, acc =>
    if pos < endp then
      let t := pvarint bytes endp pos 0 0
      let num := t.1 / 8
      let wt := t.1 % 8
      if num = 0 then .ok acc
      else if wt = 0 then
        let v := pvarint bytes endp t.2 0 0
        readFieldsGo bytes endp fuel v.2 (acc ++ [(num, 0, .n v.1)])
      else if wt = 1 then
        match getU32LE bytes t.2, getU32LE bytes (t.2 + 4) with
        | .ok lo, .ok hi =>
          readFieldsGo bytes endp fuel (t.2 + 8)
            (acc ++ [(num, 1, .n (lo + hi * 4294967296))])
        | _, _ => .error ()
      else if wt = 2 then
        let v := pvarint bytes endp t.2 0 0
        readFieldsGo bytes endp fuel (v.2 + v.1)
          (acc ++ [(num, 2, .slice v.2 v.1)])
      else if wt = 5 then
        match getU32LE bytes t.2 with
        | .ok v => readFieldsGo bytes endp fuel (t.2 + 4) (acc ++ [(num, 5, .n v)])
        | .error _ => .error ()
      else .ok acc
    else .ok acc

/-- `new ProtoDecoder(buf, start, len).readFields()`. -/
def readFields (bytes : List Nat) (start len : Nat) : Except Unit ProtoFields :=
  readFieldsGo bytes (start + len) (start + len + 1) start []

/-- A JS string-or-null (`Option String`) as a `JsVal`. -/
def optToJs : Option String → JsVal
  | some s => .str s
  | none => .null

/-- JS truthiness of a string-or-null (`prefix && uri` style tests). -/
def optTruthy : Option String → Bool
  | some s => s ≠ ""
  | none => false

/-- `_str(fields, num)`: decode the first entry's slice as UTF-8; `null`
when the field is absent or not length-delimited; `''` for an empty
slice; `RangeError` when the slice crosses the end of the buffer
(`new Uint8Array(buf, off, len)`). -/
def pStr (bytes : List Nat) (fs : ProtoFields) (num : Nat) :
    Except Unit (Option String) :=
  match firstEntry fs num with
  | some (2, .slice off len) =>
    if len = 0 then .ok (some "")
    else if off + len ≤ bytes.length then
      .ok (some (utf8Decode ((bytes.drop off).take len)))
    else .error ()
  | _ => .ok none

/-- `_primitive(f)`: the typed scalar, checked in source order
(int_dec 6, int_hex 7, boolean 8, float 3, null 1); anything else is
`undefined`.  Note int_hex is returned as the raw number, exactly as the
source does. -/
def pPrimitive (f : ProtoFields) : JsVal :=
  match firstEntry f 6 with
  | some (0, .n v) => .int v
  | _ =>
    match firstEntry f 7 with
    | some (0, .n v) => .int v
    | _ =>
      match firstEntry f 8 with
      | some (0, .n v) => .bool (v ≠ 0)
      | _ =>
        match firstEntry f 3 with
        | some (5, .n v) => .float32 v
        | _ => if getField f 1 ≠ [] then .null else .undefVal

/-- `_item(f)`: Reference / String / RawString / Primitive, in source
order; `undefined` when none matches.  A Reference whose `id` entry is a
slice renders as JS `'@0x' + ({}).toString(16)`, i.e.
`"@0x[object Object]"`. -/
def pItem (bytes : List Nat) (f : ProtoFields) : Except Unit JsVal :=
  match firstEntry f 1 with
  | some (2, .slice off len) => do
    let ref ← readFields bytes off len
    match firstEntry ref 1 with
    | some (_, .n v) => .ok (.str ("@0x" ++ jsHex v))
    | some (_, .slice _ _) => .ok (.str "@0x[object Object]")
    | none => .ok (.str ("@0x" ++ jsHex 0))
  | _ =>
    match firstEntry f 2 with
    | some (2, .slice off len) => do
      let sub ← readFields bytes off len
      let s ← pStr bytes sub 1
      .ok (match s with | some t => .str t | none => .null)
    | _ =>
      match firstEntry f 3 with
      | some (2, .slice off len) => do
        let sub ← readFields bytes off len
        let s ← pStr bytes sub 1
        .ok (match s with | some t => .str t | none => .null)
      | _ =>
        match firstEntry f 7 with
        | some (2, .slice off len) => do
          let sub ← readFields bytes off len
          .ok (pPrimitive sub)
        | _ => .ok .undefVal

/-- The per-attribute value computation of `_xmlElement`
(lines 189–195 of the source): the raw string of field 3 first, then the
compiled item of field 6 overrides it when it is not `undefined`. -/
def protoAttrValue (bytes : List Nat) (af : ProtoFields) : Except Unit JsVal := do
  let raw ← pStr bytes af 3
  let value := optToJs raw
  match firstEntry af 6 with
  | some (2, .slice off len) => do
    let sub ← readFields bytes off len
    let typed ← pItem bytes sub
    if typed ≠ .undefVal then pure typed else pure value
  | _ => pure value

/-- One entry of an element's `_rawAttrs` array.  The AXML decoder also
records the raw type tag and data word (`vtype`/`vdata`); the proto
walker records only namespace, name and value (`none` here). -/
structure RawAttr where
  ns : JsVal
  name : JsVal
  value : JsVal
  vtype : Option Nat
  vdata : Option Nat
  deriving DecidableEq, Repr

/-- The `{ tag, attributes, children, _rawAttrs }` element tree shared by
the AXML decoder, the proto-XML walker and the manifest projector.
`tag` is a `JsVal` because the AXML decoder can produce a `null` tag
(string-pool miss). -/
inductive Element where
  | mk (tag : JsVal) (attributes : List (String × JsVal))
      (children : List Element) (rawAttrs : List RawAttr)

/-- `element.tag`. -/
def Element.tag : Element → JsVal
  | .mk t _ _ _ => t

/-- `element.attributes`. -/
def Element.attributes : Element → List (String × JsVal)
  | .mk _ a _ _ => a

/-- `element.children`. -/
def Element.children : Element → List Element
  | .mk _ _ c _ => c

/-- `element._rawAttrs`. -/
def Element.rawAttrs : Element → List RawAttr
  | .mk _ _ _ r => r

/-- The walker's `uri → prefix` object (`this.namespaces`). -/
abbrev NsMap : Type := List (String × String)

/-- `namespaces[uri]` (absent → JS `undefined`, modelled `none`). -/
def nsGet (ns : NsMap) (uri : String) : Option String :=
  (ns.find? (fun e => e.1 = uri)).map (fun e => e.2)

/-- `namespaces[uri] = prefixStr` (JS object write semantics). -/
def nsSet (ns : NsMap) (uri pfx : String) : NsMap :=
  if ns.any (fun e => e.1 = uri) then
    ns.map (fun e => if e.1 = uri then (uri, pfx) else e)
  else ns ++ [(uri, pfx)]

/-- The namespace-declaration loop of `_xmlElement` (field 1 entries):
`if (prefix && uri) this.namespaces[uri] = prefix`. -/
def protoNsDecls (bytes : List Nat) : NsMap → List (Nat × PVal) →
    Except Unit NsMap
  | ns, [] => .ok ns
  | ns, (wt, v) :: rest =>
    if wt ≠ 2 then protoNsDecls bytes ns rest
    else
      match v with
      | .slice off len => do
        let nsf ← readFields bytes off len
        let pfxO ← pStr bytes nsf 1
        let uriO ← pStr bytes nsf 2
        if optTruthy pfxO ∧ optTruthy uriO then
          protoNsDecls bytes (nsSet ns (uriO.getD "") (pfxO.getD "")) rest
        else protoNsDecls bytes ns rest
      | .n _ => protoNsDecls bytes ns rest

/-- JS template/key coercion of a string-or-null (`` `${name}` `` and
`obj[null]` both produce the string `"null"`). -/
def jsKeyOf : Option String → String
  | some s => s
  | none => "null"

/-- The attribute loop of `_xmlElement` (field 4 entries): returns the
accumulated `attributes` object and `_rawAttrs` list. -/
def protoAttrsGo (bytes : List Nat) (ns : NsMap) :
    List (String × JsVal) → List RawAttr → List (Nat × PVal) →
    Except Unit (List (String × JsVal) × List RawAttr)
  | attrs, raws, [] => .ok (attrs, raws)
  | attrs, raws, (wt, v) :: rest =>
    if wt ≠ 2 then protoAttrsGo bytes ns attrs raws rest
    else
      match v with
      | .slice off len => do
        let af ← readFields bytes off len
        let nsUri ← pStr bytes af 1
        let name ← pStr bytes af 2
        let value ← protoAttrValue bytes af
        let pfx := if optTruthy nsUri then nsGet ns (nsUri.getD "") else none
        let key := if optTruthy pfx then pfx.getD "" ++ ":" ++ jsKeyOf name
          else jsKeyOf name
        protoAttrsGo bytes ns (jsSet attrs key value)
          (raws ++ [⟨optToJs nsUri, optToJs name, value, none, none⟩]) rest
      | .n _ => protoAttrsGo bytes ns attrs raws rest

mutual

/-- `_xmlNode(fields)`: field 1 must be a length-delimited `XmlElement`,
otherwise `null`.  Threads the walker's namespace object. -/
def protoXmlNode (bytes : List Nat) (fuel : Nat) (ns : NsMap)
    (fs : ProtoFields) : Except Unit (Option Element × NsMap) :=
  match firstEntry fs 1 with
  | some (2, .slice off len) => do
    let sub ← readFields bytes off len
    let r ← protoXmlElement bytes fuel ns sub
    .ok (some r.1, r.2)
  | _ => .ok (none, ns)
termination_by (fuel, 1, 0)

/-- `_xmlElement(f)`: namespace declarations, tag, attributes, children.
At fuel 0 the children loop is skipped; the fuel passed by `protoParse`
strictly dominates the possible nesting depth, so that case is
unreachable from it. -/
def protoXmlElement (bytes : List Nat) (fuel : Nat) (ns : NsMap)
    (f : ProtoFields) : Except Unit (Element × NsMap) := do
  let ns1 ← protoNsDecls bytes ns (getField f 1)
  let tagO ← pStr bytes f 3
  let tag := match jsOr (optToJs tagO) (.str "") with
    | .str s => s
    | _ => ""
  let ar ← protoAttrsGo bytes ns1 [] [] (getField f 4)
  match fuel with
  | 0 => .ok (.mk (.str tag) ar.1 [] ar.2, ns1)
  | fuel' + 1 => do
    let cr ← protoChildrenGo bytes fuel' ns1 (getField f 5)
    .ok (.mk (.str tag) ar.1 cr.1 ar.2, cr.2)
termination_by (fuel, 0, 0)

/-- The child loop of `_xmlElement` (field 5 entries): non-`null` child
nodes are appended in order. -/
def protoChildrenGo (bytes : List Nat) (fuel : Nat) :
    NsMap → List (Nat × PVal) → Except Unit (List Element × NsMap)
  | ns, [] => .ok ([], ns)
  | ns, (wt, v) :: rest =>
    if wt ≠ 2 then protoChildrenGo bytes fuel ns rest
    else
      match v with
      | .slice off len => do
        let sub ← readFields bytes off len
        let r ← protoXmlNode bytes fuel ns sub
        let rr ← protoChildrenGo bytes fuel r.2 rest
        match r.1 with
        | some el => .ok (el :: rr.1, rr.2)
        | none => .ok rr
      | .n _ => protoChildrenGo bytes fuel ns rest
termination_by ns l => (fuel, 2, l.length)

end

/-- `new ProtoXMLParser(buf).parse()`.  The walker's fuel
`bytes.length + 2` strictly dominates the nesting depth: every nested
message slice starts at least two bytes after its parent's start and no
recorded slice starts past `bytes.length + 2`. -/
def protoParse (bytes : List Nat) : Except Unit (Option Element) := do
  let fs ← readFields bytes 0 bytes.length
  let r ← protoXmlNode bytes (bytes.length + 2) [] fs
  .ok r.1

/-! ## Android binary XML decoder (`AXMLParser`, `src/js/main.js`)

`parse()` reads the 8-byte file header (type, header size, file size),
throws `NotAxml` when the type word is not 0x0003, then iterates chunks:
each chunk header is `{type:u16, headerSize:u16, size:u32}`; after a
chunk is processed the cursor jumps to `chunkStart + chunkSize`.  The
loop stops when the cursor reaches the file size or the buffer end, or
when a chunk has `chunkSize < 8` or would overrun the buffer.

All multi-byte reads go through `DataView`, which throws `RangeError`
when a read crosses the end of the buffer; those reads are embedded as
`Except Unit` (`()` = the thrown `RangeError`).  The JS decoder mutates
elements that are simultaneously on the stack and in their parent's
`children`; this is modelled by keeping a stack of frames and attaching
a completed frame to its parent when it is popped (or when the loop
ends with unclosed elements), which produces the same tree. -/

/-- `DataView.getUint8`. -/
def getU8E (bytes : List Nat) (pos : Nat) : Except Unit Nat :=
  if pos + 1 ≤ bytes.length then .ok (byteAt bytes pos) else .error ()

/-- `DataView.getUint16(pos, true)`. -/
def getU16LE (bytes : List Nat) (pos : Nat) : Except Unit Nat :=
  if pos + 2 ≤ bytes.length then
    .ok (byteAt bytes pos + byteAt bytes (pos + 1) * 256)
  else .error ()

/-- `DataView.getInt32(pos, true)`. -/
def getI32LE (bytes : List Nat) (pos : Nat) : Except Unit Int := do
  let v ← getU32LE bytes pos
  if v < 2147483648 then .ok (v : Int) else .ok ((v : Int) - 4294967296)

/-- `_readStringAt(offset, isUTF8)`, UTF-16LE branch: read `n` code
units one `getUint16` at a time (`String.fromCharCode` per unit; a lone
surrogate unit has no `Char` counterpart and collapses to `'\0'`). -/
def axmlUtf16Chars (bytes : List Nat) : Nat → Nat → Except Unit (List Char)
  | _, 0 => .ok []
  | pos, n + 1 => do
    let u ← getU16LE bytes pos
    let rest ← axmlUtf16Chars bytes (pos + 2) n
    .ok (Char.ofNat u :: rest)

/-- `_readStringAt(offset, isUTF8)` (the saved cursor is restored by the
source's `finally`, so only the read results matter). -/
def axmlReadStringAt (bytes : List Nat) (offset : Nat) (isUTF8 : Bool) :
    Except Unit String :=
  if isUTF8 then do
    let u16len ← getU8E bytes offset
    let pos := if u16len &&& 0x80 ≠ 0 then offset + 2 else offset + 1
    if u16len &&& 0x80 ≠ 0 then (do let _ ← getU8E bytes (offset + 1); pure ())
      else pure ()
    let b0 ← getU8E bytes pos
    let r ← (if b0 &&& 0x80 ≠ 0 then do
        let b1 ← getU8E bytes (pos + 1)
        .ok (((b0 &&& 0x7f) <<< 8) ||| b1, pos + 2)
      else .ok (b0, pos + 1))
    if r.2 + r.1 ≤ bytes.length then
      .ok (utf8Decode ((bytes.drop r.2).take r.1))
    else .error ()
  else do
    let w0 ← getU16LE bytes offset
    let r ← (if w0 &&& 0x8000 ≠ 0 then do
        let w1 ← getU16LE bytes (offset + 2)
        .ok (((w0 &&& 0x7fff) <<< 16) ||| w1, offset + 4)
      else .ok (w0, offset + 2))
    let cs ← axmlUtf16Chars bytes r.2 r.1
    .ok (String.mk cs)

/-- A run of `count` consecutive `getUint32` reads (string-pool offsets,
resource-map entries). -/
def axmlU32List (bytes : List Nat) : Nat → Nat → Except Unit (List Nat)
  | _, 0 => .ok []
  | pos, n + 1 => do
    let v ← getU32LE bytes pos
    let rest ← axmlU32List bytes (pos + 4) n
    .ok (v :: rest)

/-- Read each pool string at `dataStart + off`. -/
def axmlReadStrings (bytes : List Nat) (dataStart : Nat) (isUTF8 : Bool) :
    List Nat → Except Unit (List String)
  | [] => .ok []
  | off :: rest => do
    let s ← axmlReadStringAt bytes (dataStart + off) isUTF8
    let ss ← axmlReadStrings bytes dataStart isUTF8 rest
    .ok (s :: ss)

/-- `_parseStringPool(chunkStart, chunkSize)`: header, string offsets,
then the strings (style offsets are skipped without reading). -/
def axmlParseStringPool (bytes : List Nat) (chunkStart : Nat) :
    Except Unit (List String) := do
  let stringCount ← getU32LE bytes (chunkStart + 8)
  let _styleCount ← getU32LE bytes (chunkStart + 12)
  let flags ← getU32LE bytes (chunkStart + 16)
  let stringsStart ← getU32LE bytes (chunkStart + 20)
  let _stylesStart ← getU32LE bytes (chunkStart + 24)
  let isUTF8 := flags &&& 256 ≠ 0
  let offs ← axmlU32List bytes (chunkStart + 28) stringCount
  axmlReadStrings bytes (chunkStart + stringsStart) isUTF8 offs

/-- `_parseResourceMap(chunkSize)`: `(chunkSize - 8) >>> 2` entries. -/
def axmlParseResourceMap (bytes : List Nat) (chunkStart chunkSize : Nat) :
    Except Unit (List Nat) :=
  axmlU32List bytes (chunkStart + 8) ((chunkSize - 8) / 4)

/-- `_str(index)`: `null` for an out-of-range index, else the pooled
string. -/
def axmlStr (strings : List String) (index : Int) : JsVal :=
  if index < 0 ∨ (strings.length : Int) ≤ index then .null
  else .str (strings.getD index.toNat "")

/-- `_parseStartNamespace()`: record `uri → prefix` when both pooled
strings are truthy. -/
def axmlParseStartNamespace (bytes : List Nat) (chunkStart : Nat)
    (strings : List String) (ns : NsMap) : Except Unit NsMap := do
  let _line ← getU32LE bytes (chunkStart + 8)
  let _comment ← getU32LE bytes (chunkStart + 12)
  let pfxIdx ← getU32LE bytes (chunkStart + 16)
  let uriIdx ← getU32LE bytes (chunkStart + 20)
  match axmlStr strings (pfxIdx : Int), axmlStr strings (uriIdx : Int) with
  | .str p, .str u =>
    if p ≠ "" ∧ u ≠ "" then .ok (nsSet ns u p) else .ok ns
  | _, _ => .ok ns

/-- `['px','dp','sp','pt','in','mm'][data & 0x0f] || ''`. -/
def axmlDimSuffix (u : Nat) : String :=
  (["px", "dp", "sp", "pt", "in", "mm"]).getD u ""

/-- `['%','%p'][data & 0x0f] || ''`. -/
def axmlFracSuffix (u : Nat) : String := (["%", "%p"]).getD u ""

/-- `_resolveValue(type, data)`.  Typed attribute values: strings via the
pool, ints as the raw u32, hex/reference/attribute as rendered strings,
booleans via `data !== 0`, floats as raw bits, dimension/fraction as
`complex` (raw data plus unit suffix), null, and the raw data number for
unknown type tags. -/
def axmlResolveValue (strings : List String) (vtype data : Nat) : JsVal :=
  if vtype = 0x03 then axmlStr strings (data : Int)
  else if vtype = 0x10 then .int (data : Int)
  else if vtype = 0x11 then .str ("0x" ++ jsHex data)
  else if vtype = 0x12 then .bool (data ≠ 0)
  else if vtype = 0x01 then .str ("@0x" ++ jsHex data)
  else if vtype = 0x02 then .str ("?0x" ++ jsHex data)
  else if vtype = 0x04 then .float32 data
  else if vtype = 0x05 then .complex data (axmlDimSuffix (data % 16))
  else if vtype = 0x06 then .complex data (axmlFracSuffix (data % 16))
  else if vtype = 0x00 then .null
  else .int (data : Int)

/-- Object-key coercion of the (possibly `null`) attribute name used for
`element.attributes[key]`.  `axmlStr` only produces `.str` or `.null`;
the remaining cases cover JS's generic `String(v)` coercion shape. -/
def jsValKey : JsVal → String
  | .str s => s
  | .null => "null"
  | .undefVal => "undefined"
  | .bool b => if b then "true" else "false"
  | .int n => toString n
  | .float32 _ => "[number]"
  | .complex _ _ => "[number]"

/-- An element under construction: its own tag/attributes plus the
children completed so far. -/
structure AxFrame where
  tag : JsVal
  attrs : List (String × JsVal)
  raw : List RawAttr
  kids : List Element

/-- Complete a frame into an element. -/
def axClose (f : AxFrame) : Element := .mk f.tag f.attrs f.kids f.raw

/-- END_ELEMENT: `if (stack.length > 1) stack.pop()` — the completed
element becomes the last child of the new stack top. -/
def axPop : List AxFrame → List AxFrame
  | top :: parent :: rest =>
    { parent with kids := parent.kids ++ [axClose top] } :: rest
  | st => st

/-- Collapse the remaining stack at the end of the chunk loop
(unclosed elements stay attached to their parents, as the mutating JS
decoder leaves them). -/
def axFinalize : List AxFrame → Element
  | [] => .mk (.str "#document") [] [] []
  | [f] => axClose f
  | top :: parent :: rest =>
    axFinalize ({ parent with kids := parent.kids ++ [axClose top] } :: rest)
termination_by st => st.length
decreasing_by simp only [List.length_cons]; omega

/-- The attribute loop of `_parseStartElement`: attribute `i` is read at
`base + i * step` where `step = attrSize || 20`; the 20 structure bytes
are always read even when `attrSize` differs. -/
def axmlAttrsGo (bytes : List Nat) (strings : List String) (ns : NsMap)
    (base step : Nat) :
    Nat → Nat → List (String × JsVal) → List RawAttr →
      Except Unit (List (String × JsVal) × List RawAttr)
  | _, 0, attrs, raws => .ok (attrs, raws)
  | i, rem + 1, attrs, raws => do
    let off := base + i * step
    let aNs ← getI32LE bytes off
    let aName ← getU32LE bytes (off + 4)
    let aRawValue ← getI32LE bytes (off + 8)
    let _valueSize ← getU16LE bytes (off + 12)
    let _res0 ← getU8E bytes (off + 14)
    let aType ← getU8E bytes (off + 15)
    let aData ← getU32LE bytes (off + 16)
    let nameStr := axmlStr strings (aName : Int)
    let nsStr := if 0 ≤ aNs then axmlStr strings aNs else .null
    let value := if 0 ≤ aRawValue then axmlStr strings aRawValue
      else axmlResolveValue strings aType aData
    let pfx := match nsStr with
      | .str s => if s ≠ "" then nsGet ns s else none
      | _ => none
    let key := if optTruthy pfx then pfx.getD "" ++ ":" ++ jsValKey nameStr
      else jsValKey nameStr
    axmlAttrsGo bytes strings ns base step (i + 1) rem
      (jsSet attrs key value)
      (raws ++ [⟨nsStr, nameStr, value, some aType, some aData⟩])

/-- `_parseStartElement(chunkStart)`: header fields, then the attribute
list at `chunkStart + 16 + attrStart`. -/
def axmlParseStartElement (bytes : List Nat) (chunkStart : Nat)
    (strings : List String) (ns : NsMap) : Except Unit AxFrame := do
  let _line ← getU32LE bytes (chunkStart + 8)
  let _comment ← getU32LE bytes (chunkStart + 12)
  let _nsIdx ← getI32LE bytes (chunkStart + 16)
  let nameIdx ← getU32LE bytes (chunkStart + 20)
  let attrStart ← getU16LE bytes (chunkStart + 24)
  let attrSize ← getU16LE bytes (chunkStart + 26)
  let attrCount ← getU16LE bytes (chunkStart + 28)
  let _idIdx ← getU16LE bytes (chunkStart + 30)
  let _classIdx ← getU16LE bytes (chunkStart + 32)
  let _styleIdx ← getU16LE bytes (chunkStart + 34)
  let base := chunkStart + 16 + attrStart
  let step := if attrSize = 0 then 20 else attrSize
  let ar ← axmlAttrsGo bytes strings ns base step 0 attrCount [] []
  .ok ⟨axmlStr strings (nameIdx : Int), ar.1, ar.2, []⟩

/-- Dispatch on the chunk type (string pool, resource map, namespaces,
start/end element; CDATA and unknown types are skipped). -/
def axmlProcessChunk (bytes : List Nat) (chunkStart chunkType chunkSize : Nat)
    (strings : List String) (resIds : List Nat) (ns : NsMap)
    (stack : List AxFrame) :
    Except Unit (List String × List Nat × NsMap × List AxFrame) :=
  if chunkType = 0x0001 then do
    let s ← axmlParseStringPool bytes chunkStart
    .ok (s, resIds, ns, stack)
  else if chunkType = 0x0180 then do
    let r ← axmlParseResourceMap bytes chunkStart chunkSize
    .ok (strings, r, ns, stack)
  else if chunkType = 0x0100 then do
    let n ← axmlParseStartNamespace bytes chunkStart strings ns
    .ok (strings, resIds, n, stack)
  else if chunkType = 0x0102 then do
    let fr ← axmlParseStartElement bytes chunkStart strings ns
    .ok (strings, resIds, ns, fr :: stack)
  else if chunkType = 0x0103 then
    .ok (strings, resIds, ns, axPop stack)
  else
    .ok (strings, resIds, ns, stack)

/-- The chunk loop of `parse()`: runs while the cursor is below both the
declared file size and the buffer length; breaks on `chunkSize < 8` or a
chunk overrunning the buffer; otherwise processes the chunk and jumps to
`chunkStart + chunkSize`.  Terminates because the cursor strictly
increases by at least 8 each iteration. -/
def axmlLoop (bytes : List Nat) (fileSize : Nat) (offset : Nat)
    (strings : List String) (resIds : List Nat) (ns : NsMap)
    (stack : List AxFrame) : Except Unit (List AxFrame) :=
  if offset < fileSize ∧ offset < bytes.length then
    match getU16LE bytes offset, getU16LE bytes (offset + 2),
        getU32LE bytes (offset + 4) with
    | .ok chunkType, .ok _headerSize, .ok chunkSize =>
      if h2 : chunkSize < 8 ∨ bytes.length < offset + chunkSize then .ok stack
      else
        match axmlProcessChunk bytes offset chunkType chunkSize strings resIds
            ns stack with
        | .ok r => axmlLoop bytes fileSize (offset + chunkSize) r.1 r.2.1
            r.2.2.1 r.2.2.2
        | .error e => .error e
    | _, _, _ => .error ()
  else .ok stack
termination_by fileSize - offset
decreasing_by omega

/-- Errors of `AXMLParser.parse`: `NotAxml` ("Not a valid Android Binary
XML file") or a `RangeError` from a read crossing the buffer end. -/
inductive AxmlErr where
  | notAxml
  | rangeError
  deriving DecidableEq, Repr

/-- `AXMLParser.parse()`: file header (the three header reads happen
before the type check, exactly as in the source), chunk loop from
offset 8, then `root.children[0] || root`. -/
def axmlParse (bytes : List Nat) : Except AxmlErr Element :=
  match getU16LE bytes 0, getU16LE bytes 2, getU32LE bytes 4 with
  | .ok t, .ok _headerSize, .ok fileSize =>
    if t ≠ 0x0003 then .error .notAxml
    else
      match axmlLoop bytes fileSize 8 [] [] [] [⟨.str "#document", [], [], []⟩] with
      | .ok stack =>
        let root := axFinalize stack
        .ok (match root.children with
          | [] => root
          | c :: _ => c)
      | .error _ => .error .rangeError
  | _, _, _ => .error .rangeError

/-! ## CgBI pixel restorer (`CrushedPNG`, `src/unnamed/part_001`)

`_decodePixels(inflated, width, height, bpp)` walks the scanlines,
reverses the PNG row filter into `curr`, then converts each pixel
BGRA → RGBA and un-premultiplies the alpha.  Arithmetic is on bytes;
`& 0xff` is `% 256`.  `Math.round(C * 255 / A)` on these ranges is exact
round-half-up, i.e. `(2*(C*255) + A) / (2*A)` in integer arithmetic
(the IEEE double quotient is far closer to the rational value than the
distance of any non-tie to a rounding boundary). -/

/-- `_paeth(a, b, c)`: the predictor among `a`, `b`, `c` closest to
`p = a + b - c`, ties resolved `a`, then `b`, then `c`. -/
def paeth (a b c : Nat) : Nat :=
  let p : Int := (a : Int) + b - c
  let pa := (p - a).natAbs
  let pb := (p - b).natAbs
  let pc := (p - c).natAbs
  if pa ≤ pb ∧ pa ≤ pc then a
  else if pb ≤ pc then b
  else c

/-- One byte of row-filter inversion (the `switch (filterType)`). -/
def unfilterByte (filterType raw a b c : Nat) : Nat :=
  if filterType = 0 then raw
  else if filterType = 1 then (raw + a) % 256
  else if filterType = 2 then (raw + b) % 256
  else if filterType = 3 then (raw + (a + b) / 2) % 256
  else if filterType = 4 then (raw + paeth a b c) % 256
  else raw

/-- The inner filter loop: build `curr[0..n)` left to right; `a`/`c` are
the already-reconstructed/previous-row left neighbours at distance
`bpp` (0 at the row start), `b` the byte above. -/
def unfilterRowGo (inflated prev : List Nat) (filterType rowOff bpp : Nat) :
    Nat → Nat → List Nat → List Nat
  | _, 0, curr => curr
  | i, rem + 1, curr =>
    let raw := byteAt inflated (rowOff + 1 + i)
    let a := if bpp ≤ i then byteAt curr (i - bpp) else 0
    let b := byteAt prev i
    let c := if bpp ≤ i then byteAt prev (i - bpp) else 0
    unfilterRowGo inflated prev filterType rowOff bpp (i + 1) rem
      (curr ++ [unfilterByte filterType raw a b c])

/-- Reverse the filter of one scanline (`n = width * bpp` bytes). -/
def unfilterRow (inflated prev : List Nat) (filterType rowOff bpp n : Nat) :
    List Nat :=
  unfilterRowGo inflated prev filterType rowOff bpp 0 n []

/-- `Math.round(n / d)` on the un-premultiply operands: exact
round-half-up in integer arithmetic. -/
def jsRoundDiv (n d : Nat) : Nat := (2 * n + d) / (2 * d)

/-- The per-pixel BGRA → RGBA conversion with alpha un-premultiply
(the inner `for (x …)` body): fully transparent pixels collapse to
zeros; `0 < A < 255` with RGBA input un-premultiplies each colour as
`min(255, round(C * 255 / A))` and keeps `A`; anything else (including
RGB input, where `A` was set to 255) passes through. -/
def bgraToRgba (bpp B G R A : Nat) : List Nat :=
  if A = 0 then [0, 0, 0, 0]
  else if A < 255 ∧ bpp = 4 then
    [min 255 (jsRoundDiv (R * 255) A),
     min 255 (jsRoundDiv (G * 255) A),
     min 255 (jsRoundDiv (B * 255) A),
     A]
  else [R, G, B, A]

/-- Convert one reconstructed row into output RGBA bytes, pixel by
pixel. -/
def rowPixels (curr : List Nat) (bpp : Nat) : Nat → Nat → List Nat
  | _, 0 => []
  | x, w + 1 =>
    let s := x * bpp
    let B := byteAt curr s
    let G := byteAt curr (s + 1)
    let R := byteAt curr (s + 2)
    let A := if bpp = 4 then byteAt curr (s + 3) else 255
    bgraToRgba bpp B G R A ++ rowPixels curr bpp (x + 1) w

/-- The scanline loop of `_decodePixels`: unfilter each row against the
previous one (zeroed before the first row), emit its pixels, carry the
row forward. -/
def decodeRows (inflated : List Nat) (width bpp stride : Nat) :
    Nat → Nat → List Nat → List Nat
  | _, 0, _ => []
  | y, rem + 1, prev =>
    let rowOff := y * stride
    let filterType := byteAt inflated rowOff
    let curr := unfilterRow inflated prev filterType rowOff bpp (width * bpp)
    rowPixels curr bpp 0 width ++
      decodeRows inflated width bpp stride (y + 1) rem curr

/-- `_decodePixels(inflated, width, height, bpp)`: the output RGBA plane
as a flat byte list (the JS `Uint8Array(width*height*4)` written
densely in the same order). -/
def decodePixels (inflated : List Nat) (width height bpp : Nat) : List Nat :=
  decodeRows inflated width bpp (1 + width * bpp) 0 height
    (List.replicate (width * bpp) 0)

/-! ## APK manifest projector (`APKParser`, `src/js/apk-parser.js`)

`APKParser.parse` lists the archive, decodes `AndroidManifest.xml`
inside a try/catch (a decode error is recorded as `_manifestError` and
does not abort), then computes the icon, signing, native-library and
dex-count fields from the entry list.  The archive itself (JSZip) is the
opaque EntryStore: entries are `(name, isDir, content)` and opening an
entry yields its bytes directly (`URL.createObjectURL` of an icon blob
is represented by the matched entry path). -/

/-- One archive entry of the opaque EntryStore: JSZip's `zip.files`
record (directories included). -/
structure ZEntry where
  name : String
  isDir : Bool
  content : List Nat
  deriving DecidableEq, Repr

/-- `zip.file(path)`: the entry's bytes, `null` for directories and
missing paths. -/
def zipFile (zip : List ZEntry) (path : String) : Option (List Nat) :=
  match zip.find? (fun e => e.name = path) with
  | some e => if e.isDir then none else some e.content
  | none => none

/-- `Object.keys(zip.files)` (in listing order). -/
def zipNames (zip : List ZEntry) : List String := zip.map (fun e => e.name)

/-- ASCII lower-casing of one character (`String.prototype.toLowerCase`
on the ASCII archive paths the parsers deal with). -/
def charLower (c : Char) : Char :=
  if 65 ≤ c.toNat ∧ c.toNat ≤ 90 then Char.ofNat (c.toNat + 32) else c

/-- `s.toLowerCase()` (ASCII case folding). -/
def strLower (s : String) : String := String.mk (s.toList.map charLower)

/-- `s.includes(sub)` for a non-empty `sub`. -/
def strIncludes (s sub : String) : Bool := (s.splitOn sub).length > 1

/-- `this._child(el, tag)`: first child with `c.tag === tag`. -/
def childBy (el : Element) (tag : String) : Option Element :=
  el.children.find? (fun c => c.tag = JsVal.str tag)

/-- `this._children(el, tag)`: all children with `c.tag === tag`. -/
def childrenBy (el : Element) (tag : String) : List Element :=
  el.children.filter (fun c => c.tag = JsVal.str tag)

/-- `_isLauncher(activity)`: some `intent-filter` child has both an
`action` child named `android.intent.action.MAIN` and a `category`
child named `android.intent.category.LAUNCHER`. -/
def isLauncher (activity : Element) : Bool :=
  (childrenBy activity "intent-filter").any (fun f =>
    ((childrenBy f "action").any (fun a =>
      jsGet a.attributes "android:name" =
        JsVal.str "android.intent.action.MAIN")) &&
    ((childrenBy f "category").any (fun c =>
      jsGet c.attributes "android:name" =
        JsVal.str "android.intent.category.LAUNCHER")))

/-- `activities[i]` entries: `{ name, isLauncher }`. -/
structure ActivityInfo where
  name : JsVal
  isLauncher : Bool
  deriving DecidableEq, Repr

/-- The `signingInfo` record. -/
structure SigningInfo where
  signed : Bool
  certFile : String
  signatureFiles : List String
  deriving DecidableEq, Repr

/-- The Android `BuildInfo` record built by `APKParser.parse`
(`manifestError` is the source's `_manifestError`, set only when
decoding the manifest threw; `icon` holds the matched icon entry path,
standing for the created blob URL). -/
structure BuildInfo where
  ptype : String
  fileName : String
  fileSize : Nat
  package : JsVal
  appName : JsVal
  versionCode : JsVal
  versionName : JsVal
  minSdkVersion : JsVal
  targetSdkVersion : JsVal
  permissions : List JsVal
  activities : List ActivityInfo
  services : List JsVal
  receivers : List JsVal
  icon : Option String
  iconPath : Option String
  signingInfo : Option SigningInfo
  debuggable : Bool
  architectures : Option (List String)
  dexCount : Nat
  totalFiles : Nat
  manifestError : Option AxmlErr
  deriving DecidableEq, Repr

/-- The `info` object as initialised at the top of `APKParser.parse`. -/
def apkInit (fileName : String) (fileSize total : Nat) : BuildInfo where
  ptype := "APK"
  fileName := fileName
  fileSize := fileSize
  package := .null
  appName := .null
  versionCode := .null
  versionName := .null
  minSdkVersion := .null
  targetSdkVersion := .null
  permissions := []
  activities := []
  services := []
  receivers := []
  icon := none
  iconPath := none
  signingInfo := none
  debuggable := false
  architectures := none
  dexCount := 0
  totalFiles := total
  manifestError := none

/-- `_extractManifest(manifest, info)`: manifest-level attributes,
`uses-sdk`, `uses-permission`, and the `application` child's label /
debuggable / icon / activities / services / receivers. -/
def extractManifest (manifest : Element) (info : BuildInfo) : BuildInfo :=
  if manifest.tag ≠ JsVal.str "manifest" then info
  else
    let a := manifest.attributes
    let info1 := { info with
      package := jsNullish (jsGet a "package") .null
      versionCode := jsNullish (jsGet a "android:versionCode") .null
      versionName := jsNullish (jsGet a "android:versionName") .null }
    let info2 := match childBy manifest "uses-sdk" with
      | some sdk => { info1 with
          minSdkVersion :=
            jsNullish (jsGet sdk.attributes "android:minSdkVersion") .null
          targetSdkVersion :=
            jsNullish (jsGet sdk.attributes "android:targetSdkVersion") .null }
      | none => info1
    let info3 := { info2 with permissions :=
      (((childrenBy manifest "uses-permission").map (fun p =>
        jsOr (jsGet p.attributes "android:name") (.str ""))).filter
          (fun v => jsTruthy v)) }
    match childBy manifest "application" with
    | some app =>
      let iconAttr := jsGet app.attributes "android:icon"
      { info3 with
        appName := jsNullish (jsGet app.attributes "android:label") .null
        debuggable := jsGet app.attributes "android:debuggable" = JsVal.bool true
        iconPath := (match iconAttr with
          | .str s => if ¬ s.startsWith "@" then some s else info3.iconPath
          | _ => info3.iconPath)
        activities := (childrenBy app "activity").map (fun ac =>
          ⟨jsOr (jsGet ac.attributes "android:name") (.str ""), isLauncher ac⟩)
        services := ((childrenBy app "service").map (fun s =>
          jsOr (jsGet s.attributes "android:name") (.str ""))).filter
            (fun v => jsTruthy v)
        receivers := ((childrenBy app "receiver").map (fun r =>
          jsOr (jsGet r.attributes "android:name") (.str ""))).filter
            (fun v => jsTruthy v) }
    | none => info3

/-- The icon candidate paths tried in order by `_extractIcon`. -/
def apkIconCandidates : List String :=
  ["res/mipmap-xxxhdpi-v4/ic_launcher.png",
   "res/mipmap-xxhdpi-v4/ic_launcher.png",
   "res/mipmap-xhdpi-v4/ic_launcher.png",
   "res/mipmap-hdpi-v4/ic_launcher.png",
   "res/mipmap-mdpi-v4/ic_launcher.png",
   "res/mipmap-xxxhdpi/ic_launcher.png",
   "res/mipmap-xxhdpi/ic_launcher.png",
   "res/mipmap-xhdpi/ic_launcher.png",
   "res/mipmap-hdpi/ic_launcher.png",
   "res/drawable-xxxhdpi-v4/ic_launcher.png",
   "res/drawable-xxhdpi-v4/ic_launcher.png",
   "res/drawable-xhdpi-v4/ic_launcher.png",
   "res/drawable-hdpi-v4/ic_launcher.png",
   "res/mipmap-xxxhdpi-v4/ic_launcher_round.png",
   "res/mipmap-xxhdpi-v4/ic_launcher_round.png",
   "res/mipmap-xxxhdpi/ic_launcher_round.png",
   "res/mipmap-xxhdpi/ic_launcher_round.png"]

/-- `/ic_launcher[^\/]*\.png$/i`: ends in `.png` and, after the last
occurrence of `ic_launcher` (case-insensitively), no further `/` before
that suffix. -/
def icLauncherMatch (f : String) : Bool :=
  let t := strLower f
  t.endsWith ".png" &&
    (let parts := (t.dropRight 4).splitOn "ic_launcher"
     parts.length > 1 && !((parts.getLastD "").contains '/'))

/-- `densityRank.findIndex(d => s.includes(d))`, 99 when none match. -/
def densityRankOf (s : String) : Nat :=
  match (["xxxhdpi", "xxhdpi", "xhdpi", "hdpi", "mdpi"]).findIdx?
      (fun d => strIncludes s d) with
  | some i => i
  | none => 99

/-- `.sort((a, b) => rank(a) - rank(b))[0]` for a stable sort: the first
element of minimal rank. -/
def firstMinBy (l : List String) (rank : String → Nat) : Option String :=
  l.foldl (fun best x =>
    match best with
    | none => some x
    | some b => if rank x < rank b then some x else best) none

/-- The candidate scan and regex fallback of `_extractIcon` (after the
explicit-path attempt). -/
def apkIconScan (zip : List ZEntry) (info : BuildInfo) :
    Option String × BuildInfo :=
  match apkIconCandidates.find? (fun p => (zipFile zip p).isSome) with
  | some p => (some p, { info with iconPath := some p })
  | none =>
    match firstMinBy ((zipNames zip).filter icLauncherMatch) densityRankOf with
    | some m =>
      match zipFile zip m with
      | some _ => (some m, { info with iconPath := some m })
      | none => (none, info)
    | none => (none, info)

/-- `_extractIcon(zip, info)`: explicit manifest path first, then the
candidate list, then the regex fallback. -/
def apkExtractIcon (zip : List ZEntry) (info : BuildInfo) :
    Option String × BuildInfo :=
  match info.iconPath with
  | some p =>
    match zipFile zip p with
    | some _ => (some p, info)
    | none => apkIconScan zip info
  | none => apkIconScan zip info

/-- `/\.(RSA|DSA|EC)$/i`. -/
def certMatch (f : String) : Bool :=
  let t := strLower f
  t.endsWith ".rsa" || t.endsWith ".dsa" || t.endsWith ".ec"

/-- `/\.(SF|MF)$/i`. -/
def sigMatch (f : String) : Bool :=
  let t := strLower f
  t.endsWith ".sf" || t.endsWith ".mf"

/-- `[...new Set(xs)]`: first-occurrence-order deduplication. -/
def dedupStr (l : List String) : List String :=
  l.foldl (fun acc x => if acc.contains x then acc else acc ++ [x]) []

/-- `f.split('/')[1]`. -/
def pathSeg1 (f : String) : String := (f.splitOn "/").getD 1 ""

/-- The signing block of `APKParser.parse`. -/
def apkSigningInfo (zip : List ZEntry) : Option SigningInfo :=
  let metaFiles := (zipNames zip).filter (fun f => f.startsWith "META-INF/")
  match metaFiles.find? certMatch with
  | some c => some ⟨true, c, metaFiles.filter sigMatch⟩
  | none => none

/-- The native-libraries block of `APKParser.parse`:
`lib/<arch>/….so` entries, deduplicated in discovery order (`null` when
there are none). -/
def apkArchitectures (zip : List ZEntry) : Option (List String) :=
  let soFiles := (zipNames zip).filter
    (fun f => f.startsWith "lib/" && f.endsWith ".so")
  if soFiles.isEmpty then none
  else some (dedupStr (soFiles.map pathSeg1))

/-- The dex-count block of `APKParser.parse`. -/
def apkDexCount (zip : List ZEntry) : Nat :=
  ((zipNames zip).filter (fun f => f.endsWith ".dex")).length

/-- `APKParser.parse(file)` over the opaque EntryStore.  The manifest
try/catch corresponds to the `match` on `axmlParse`: a decode error
lands in `manifestError` and the remaining archive-level blocks still
run. -/
def apkParse (fileName : String) (fileSize : Nat) (zip : List ZEntry) :
    BuildInfo :=
  let info0 := apkInit fileName fileSize (zipNames zip).length
  let info1 := match zipFile zip "AndroidManifest.xml" with
    | some buf =>
      match axmlParse buf with
      | .ok tree => extractManifest tree info0
      | .error e => { info0 with manifestError := some e }
    | none => info0
  let ir := apkExtractIcon zip info1
  let info2 := { ir.2 with icon := ir.1 }
  let info3 := match apkSigningInfo zip with
    | some s => { info2 with signingInfo := some s }
    | none => info2
  let info4 := match apkArchitectures zip with
    | some archs => { info3 with architectures := some archs }
    | none => info3
  { info4 with dexCount := apkDexCount zip }

/-! ## IPA parser (`IPAParser`, `src/unnamed/part_001`)

`IPAParser.parse` locates the `.app` bundle directory entry inside
`Payload/` and throws (`No .app bundle found inside IPA`) when none
matches — the only uncaught throw after archive loading.  `Info.plist`
decoding, icon extraction and provisioning parsing are each wrapped in
try/catch (or internally best-effort) and cannot abort the parse.

External collaborators are parameters: `xmlReader` is the textual-plist
reader (`DOMParser`-based `_parseXMLPlist`; `none` = it threw), and
`loadIcon` is `_loadIconEntry` (CgBI uncrush + canvas + object URL, all
failure-caught in the source; `none` = it returned `null`). -/

/-- JS property read `v[k]` for plist values (callers handle the
`TypeError` of reading from `null`/`undefined` explicitly; on other
non-object values the read yields `undefined`). -/
def pGetD : PValue → String → PValue
  | .dict entries, k =>
    (match entries.find? (fun e => e.1 = k) with
     | some e => e.2
     | none => .undefVal)
  | _, _ => .undefVal

/-- JS truthiness of a plist value (`0`, `''`, `false`, `null`,
`undefined` falsy; objects and arrays, even empty, truthy; a `real` is
falsy when its bits encode a zero). -/
def pTruthy : PValue → Bool
  | .null => false
  | .undefVal => false
  | .bool b => b
  | .int n => n ≠ 0
  | .real 4 bits => bits ≠ 0 && bits ≠ 0x80000000
  | .real _ bits => bits ≠ 0 && bits ≠ 0x8000000000000000
  | .ascii s => s ≠ ""
  | .unicode s => s ≠ ""
  | _ => true

/-- JS `a ?? b` on plist values. -/
def pNullish (v fallback : PValue) : PValue :=
  match v with
  | .null => fallback
  | .undefVal => fallback
  | v => v

/-- JS `a || b` on plist values. -/
def pOr (v fallback : PValue) : PValue := if pTruthy v then v else fallback

/-- Optional chaining `v?.[0]`: `undefined` through `null`/`undefined`;
an array yields element 0; a string yields its first character; other
values have no index property. -/
def pIndex0 : PValue → PValue
  | .array vs => vs.getD 0 .undefVal
  | .ascii s =>
    if s = "" then .undefVal else .ascii (String.mk [s.toList.getD 0 ' '])
  | .unicode s =>
    if s = "" then .undefVal else .ascii (String.mk [s.toList.getD 0 ' '])
  | .null => .undefVal
  | .undefVal => .undefVal
  | _ => .undefVal

/-- Optional chaining `v?.length`: array/string/data lengths; other
values have no `length` property (a dict only via an explicit key). -/
def pLength : PValue → PValue
  | .array vs => .int vs.length
  | .ascii s => .int s.length
  | .unicode s => .int s.length
  | .data bs => .int bs.length
  | .dict entries =>
    (match entries.find? (fun e => e.1 = "length") with
     | some e => e.2
     | none => .undefVal)
  | _ => .undefVal

/-- JS spread `[...v]` into an array push: arrays spread their elements,
strings their characters, byte arrays their bytes; other truthy values
are not iterable (`none` = the thrown `TypeError`). -/
def pSpread : PValue → Option (List PValue)
  | .array vs => some vs
  | .ascii s => some (s.toList.map (fun c => .ascii (String.mk [c])))
  | .unicode s => some (s.toList.map (fun c => .ascii (String.mk [c])))
  | .data bs => some (bs.map (fun b => .int b))
  | _ => none

/-- `familyNames[f] || `Unknown (${f})``: the object key is the value
coerced to a string. -/
def familyName (f : PValue) : String :=
  let k := pToKey f
  if k = "1" then "iPhone"
  else if k = "2" then "iPad"
  else if k = "3" then "Apple TV"
  else if k = "4" then "Apple Watch"
  else "Unknown (" ++ k ++ ")"

/-- What `info._plistError` records (`e.message` of the caught error). -/
inductive PlistFail where
  | notBplist      -- 'Not a binary plist file' (unreachable after the magic test)
  | unknownFormat  -- 'Unknown plist format'
  | xmlFail        -- the external XML-plist reader threw
  | accessError    -- TypeError inside _extractPlistInfo
  | stackOverflow  -- unbounded bplist recursion (fuel exhausted)
  deriving DecidableEq, Repr

/-- The provisioning-profile record built by `_parseProvisioning`. -/
structure ProvInfo where
  name : PValue
  teamName : PValue
  teamId : PValue
  appIdName : PValue
  isXcodeManaged : PValue
  creationDate : PValue
  expirationDate : PValue
  provisionedDevices : PValue
  entitlements : PValue

/-- The iOS `BuildInfo` record built by `IPAParser.parse`
(`plistError` is the source's `_plistError`; `executableName` the
source's `_executableName`; `icon` stands for the blob URL). -/
structure IpaInfo where
  ptype : String
  fileName : String
  fileSize : Nat
  bundleId : PValue
  appName : PValue
  displayName : PValue
  version : PValue
  buildNumber : PValue
  minOSVersion : PValue
  executableName : PValue
  deviceFamilies : List String
  supportedPlatforms : PValue
  icon : Option String
  iconPath : Option String
  hasProvisioning : Bool
  provisioningInfo : Option ProvInfo
  frameworks : Option (List String)
  requiredCapabilities : Option PValue
  backgroundModes : Option PValue
  totalFiles : Nat
  plistError : Option PlistFail

/-- The `info` object as initialised at the top of `IPAParser.parse`. -/
def ipaInit (fileName : String) (fileSize total : Nat) : IpaInfo where
  ptype := "IPA"
  fileName := fileName
  fileSize := fileSize
  bundleId := .null
  appName := .null
  displayName := .null
  version := .null
  buildNumber := .null
  minOSVersion := .null
  executableName := .null
  deviceFamilies := []
  supportedPlatforms := .array []
  icon := none
  iconPath := none
  hasProvisioning := false
  provisioningInfo := none
  frameworks := none
  requiredCapabilities := none
  backgroundModes := none
  totalFiles := total
  plistError := none

/-- `/^Payload\/[^/]+\.app\/$/i`: `Payload/`, one slash-free non-empty
segment ending in `.app`, trailing slash, case-insensitive. -/
def isAppDirName (f : String) : Bool :=
  let t := (strLower f).toList
  "payload/".toList.isPrefixOf t && ".app/".toList.isSuffixOf t &&
    (let mid := (t.drop 8).take (t.length - 13)
     mid.length > 0 && !(mid.contains '/'))

/-- `_parsePlist(buffer)`: bplist via `BPlistParser` when the first six
bytes read `bplist`, else the external XML reader when the decoded text
contains `<plist`, else `Unknown plist format`. -/
def parsePlistBytes (bytes : List Nat) (xmlReader : String → Option PValue)
    (fuel : Nat) : Except PlistFail PValue :=
  if asciiOf (bytes.take 6) = "bplist" then
    match bplistParse fuel bytes with
    | .error .notBplist => .error .notBplist
    | .ok none => .error .stackOverflow
    | .ok (some v) => .ok v
  else
    let text := utf8Decode bytes
    if strIncludes text "<plist" then
      match xmlReader text with
      | some v => .ok v
      | none => .error .xmlFail
    else .error .unknownFormat

/-- The icon-hint gathering at the end of `_extractPlistInfo`
(`CFBundleIcons.CFBundlePrimaryIcon.CFBundleIconFiles` then top-level
`CFBundleIconFiles`); `none` = a spread of a non-iterable threw. -/
def plistIconHints (plist : PValue) : Option (List PValue) := do
  let first ← (
    let icons := pGetD plist "CFBundleIcons"
    if pTruthy icons then
      let primary := pGetD icons "CFBundlePrimaryIcon"
      if pTruthy primary ∧ pTruthy (pGetD primary "CFBundleIconFiles") then
        pSpread (pGetD primary "CFBundleIconFiles")
      else some []
    else some [])
  let second ← (
    if pTruthy (pGetD plist "CFBundleIconFiles") then
      pSpread (pGetD plist "CFBundleIconFiles")
    else some [])
  some (first ++ second)

/-- `_extractPlistInfo(plist, info)`: returns the (possibly partially)
updated info, whether a `TypeError` was thrown, and the icon file-name
hints (empty when it threw, since the source's `iconFileNames` keeps its
initial `[]`).  Reading a property of `null`/`undefined` throws before
any field is set; `families.map` throws when `UIDeviceFamily` is a
truthy non-array (the fields assigned before that line keep their new
values, as under JS mutation). -/
def extractPlistInfo (plist : PValue) (info : IpaInfo) :
    IpaInfo × Bool × List PValue :=
  match plist with
  | .null => (info, true, [])
  | .undefVal => (info, true, [])
  | _ =>
    let info1 := { info with
      bundleId := pNullish (pGetD plist "CFBundleIdentifier") .null
      appName := pNullish (pGetD plist "CFBundleName") .null
      displayName := pNullish (pGetD plist "CFBundleDisplayName") .null
      version := pNullish (pGetD plist "CFBundleShortVersionString") .null
      buildNumber := pNullish (pGetD plist "CFBundleVersion") .null
      minOSVersion := pNullish (pGetD plist "MinimumOSVersion") .null
      executableName := pNullish (pGetD plist "CFBundleExecutable") .null }
    match pOr (pGetD plist "UIDeviceFamily") (.array []) with
    | .array fs =>
      let info2 := { info1 with
        deviceFamilies := fs.map familyName
        supportedPlatforms :=
          pOr (pGetD plist "CFBundleSupportedPlatforms") (.array []) }
      let info3 := if pTruthy (pGetD plist "UIRequiredDeviceCapabilities")
        then { info2 with
          requiredCapabilities := some (pGetD plist "UIRequiredDeviceCapabilities") }
        else info2
      let info4 := if pTruthy (pGetD plist "UIBackgroundModes")
        then { info3 with
          backgroundModes := some (pGetD plist "UIBackgroundModes") }
        else info3
      match plistIconHints plist with
      | some hints => (info4, false, hints)
      | none => (info4, true, [])
    | _ => (info1, true, [])

/-- The fixed icon names tried by `_extractIcon` after the plist
hints. -/
def ipaIconNames : List String :=
  ["AppIcon60x60@3x.png",
   "AppIcon60x60@2x.png",
   "AppIcon76x76@2x~ipad.png",
   "AppIcon76x76@2x.png",
   "AppIcon76x76.png",
   "AppIcon40x40@3x.png",
   "AppIcon40x40@2x.png",
   "Icon-60@3x.png",
   "Icon-60@2x.png",
   "Icon@2x.png",
   "Icon.png"]

/-- The search loop of `_extractIcon`: first name whose entry exists and
whose load succeeds. -/
def ipaIconSearch (zip : List ZEntry) (appDir : String)
    (loadIcon : String → Option String) : List String → Option String
  | [] => none
  | name :: rest =>
    match zipFile zip (appDir ++ name) with
    | some _ =>
      match loadIcon (appDir ++ name) with
      | some url => some url
      | none => ipaIconSearch zip appDir loadIcon rest
    | none => ipaIconSearch zip appDir loadIcon rest

/-- `/AppIcon.*\.png$/i`. -/
def appIconMatch (f : String) : Bool :=
  let t := strLower f
  t.endsWith ".png" && strIncludes (t.dropRight 4) "appicon"

/-- `s.includes('@3x') ? 0 : s.includes('@2x') ? 1 : 2`. -/
def iconScaleRank (s : String) : Nat :=
  if strIncludes s "@3x" then 0 else if strIncludes s "@2x" then 1 else 2

/-- `_extractIcon(zip, appDir, hints, allFiles)`: hint-derived names
(`h@3x.png`, `h@2x.png`, `h.png` — the hint coerced to a string), the
fixed names, then the `AppIcon*.png` regex fallback ranked by scale. -/
def ipaExtractIcon (zip : List ZEntry) (appDir : String)
    (hints : List PValue) (files : List String)
    (loadIcon : String → Option String) : Option String :=
  let search := (hints.flatMap (fun h =>
      [pToKey h ++ "@3x.png", pToKey h ++ "@2x.png", pToKey h ++ ".png"])) ++
    ipaIconNames
  match ipaIconSearch zip appDir loadIcon search with
  | some url => some url
  | none =>
    match firstMinBy
        (files.filter (fun f => f.startsWith appDir && appIconMatch f))
        iconScaleRank with
    | some m =>
      match zipFile zip m with
      | some _ => loadIcon m
      | none => none
    | none => none

/-- `s.indexOf(sub)` (`none` = `-1`), as a character index. -/
def strIndexOf (s sub : String) : Option Nat :=
  let parts := s.splitOn sub
  if parts.length ≤ 1 then none else some (parts.headD "").length

/-- `_parseProvisioning(buffer)`: slice the `<?xml … </plist>` region
out of the CMS envelope, parse it with the external XML reader, and
project the profile fields; `none` when the region is missing or the
reader / property access threw (the caller's catch). -/
def parseProvisioning (buf : List Nat) (xmlReader : String → Option PValue) :
    Option ProvInfo :=
  let text := utf8Decode buf
  match strIndexOf text "<?xml", strIndexOf text "</plist>" with
  | some s, some e =>
    let slice := (text.drop s).take (e + 8 - s)
    match xmlReader slice with
    | some plist =>
      match plist with
      | .null => none
      | .undefVal => none
      | _ => some {
          name := pNullish (pGetD plist "Name") .null
          teamName := pNullish (pGetD plist "TeamName") .null
          teamId := pNullish (pIndex0 (pGetD plist "TeamIdentifier")) .null
          appIdName := pNullish (pGetD plist "AppIDName") .null
          isXcodeManaged := pNullish (pGetD plist "IsXcodeManaged") (.bool false)
          creationDate := pNullish (pGetD plist "CreationDate") .null
          expirationDate := pNullish (pGetD plist "ExpirationDate") .null
          provisionedDevices :=
            pNullish (pLength (pGetD plist "ProvisionedDevices")) (.int 0)
          entitlements := pNullish (pGetD plist "Entitlements") (.dict []) }
    | none => none
  | _, _ => none

/-- `f.slice(fwPrefix.length).replace(/\.framework\/$/, '')`. -/
def frameworkName (fwPre f : String) : String :=
  let t := f.drop fwPre.length
  if t.endsWith ".framework/" then t.dropRight 11 else t

/-- `IPAParser.parse(file)`.  After the `.app`-bundle gate every step is
caught or total, so the result is `.ok`; with no matching bundle entry
the parse throws (`.error ()` = `No .app bundle found inside IPA`). -/
def ipaParse (fileName : String) (fileSize : Nat) (zip : List ZEntry)
    (xmlReader : String → Option PValue) (loadIcon : String → Option String) :
    Except Unit IpaInfo :=
  let files := zipNames zip
  let info0 := ipaInit fileName fileSize files.length
  match files.find? isAppDirName with
  | none => .error ()
  | some appDir =>
    let r1 := (match zipFile zip (appDir ++ "Info.plist") with
      | some buf =>
        (match parsePlistBytes buf xmlReader (buf.length + 1) with
         | .ok plist =>
           let r := extractPlistInfo plist info0
           if r.2.1 then ({ r.1 with plistError := some .accessError }, [])
           else (r.1, r.2.2)
         | .error e => ({ info0 with plistError := some e }, []))
      | none => (info0, []))
    let info2 := { r1.1 with
      icon := ipaExtractIcon zip appDir r1.2 files loadIcon }
    let info3 := match zipFile zip (appDir ++ "embedded.mobileprovision") with
      | some buf =>
        { info2 with
          hasProvisioning := true
          provisioningInfo := parseProvisioning buf xmlReader }
      | none => info2
    let fwPre := appDir ++ "Frameworks/"
    let fws := (files.filter (fun f =>
      f.startsWith fwPre && f.endsWith ".framework/")).map
        (fun f => frameworkName fwPre f)
    .ok (if fws.isEmpty then info3 else { info3 with frameworks := some fws })

/-! ## Concrete fixtures used by the theorems -/

/-- A malformed bplist whose single object (index 0, at offset 8) is an
array of one reference pointing back to index 0 — a self-referencing
cycle.  Layout: `"bplist00"`, object `A1 00` (array, count 1, ref 0),
offset table `08` at offset 10, 32-byte trailer with
`offsetIntSize = objectRefSize = 1`, `numObjects = 1`,
`topObjectIndex = 0`, `offsetTableStart = 10`. -/
def cyclicBplist : List Nat :=
  [0x62, 0x70, 0x6c, 0x69, 0x73, 0x74, 0x30, 0x30,
   0xa1, 0x00,
   0x08,
   0, 0, 0, 0, 0, 0, 1, 1,
   0, 0, 0, 0, 0, 0, 0, 1,
   0, 0, 0, 0, 0, 0, 0, 0,
   0, 0, 0, 0, 0, 0, 0, 10]

/-- A bplist whose single object has marker byte `0x70`: high nibble 7,
which is not one of the recognised types.  Same trailer layout as
`cyclicBplist`, table at offset 9. -/
def unknownMarkerBplist : List Nat :=
  [0x62, 0x70, 0x6c, 0x69, 0x73, 0x74, 0x30, 0x30,
   0x70,
   0x08,
   0, 0, 0, 0, 0, 0, 1, 1,
   0, 0, 0, 0, 0, 0, 0, 1,
   0, 0, 0, 0, 0, 0, 0, 0,
   0, 0, 0, 0, 0, 0, 0, 9]

/-- The S2 proto manifest: `XmlNode { 1: XmlElement { 3: "manifest",
4: XmlAttribute { 2: "versionCode", 6: Item { 7: Primitive
{ 6: varint 42 } } } } }`. -/
def s2ProtoManifest : List Nat :=
  [0x0A, 31,
   0x1A, 8, 109, 97, 110, 105, 102, 101, 115, 116,
   0x22, 19,
   0x12, 11, 118, 101, 114, 115, 105, 111, 110, 67, 111, 100, 101,
   0x32, 4, 0x3A, 2, 0x30, 42]

/-- The fields of the S2 manifest's single `XmlAttribute` message
(field 2 = name slice, field 6 = compiled item slice), as produced by
`readFields s2ProtoManifest 14 19`. -/
def s2AttrFields : ProtoFields :=
  [(2, 2, .slice 16 11), (6, 2, .slice 29 4)]

/-- `action android:name="android.intent.action.MAIN"`. -/
def c4ActionMain : Element :=
  .mk (.str "action") [("android:name", .str "android.intent.action.MAIN")] [] []

/-- `category android:name="android.intent.category.LAUNCHER"`. -/
def c4CategoryLauncher : Element :=
  .mk (.str "category")
    [("android:name", .str "android.intent.category.LAUNCHER")] [] []

/-- First activity: its intent filter has the MAIN action but no
LAUNCHER category. -/
def c4Activity1 : Element :=
  .mk (.str "activity") [("android:name", .str ".A1")]
    [.mk (.str "intent-filter") [] [c4ActionMain] []] []

/-- Second activity: its intent filter has both MAIN and LAUNCHER. -/
def c4Activity2 : Element :=
  .mk (.str "activity") [("android:name", .str ".A2")]
    [.mk (.str "intent-filter") [] [c4ActionMain, c4CategoryLauncher] []] []

/-- A manifest tree with the two activities above under `application`. -/
def c4ManifestTree : Element :=
  .mk (.str "manifest") [("package", .str "com.x")]
    [.mk (.str "application") [] [c4Activity1, c4Activity2] []] []

/-- An APK archive whose `AndroidManifest.xml` is not AXML (first word
0), plus a dex file, a native library and signing entries. -/
def c9Zip : List ZEntry :=
  [⟨"AndroidManifest.xml", false, [0, 0, 0, 0, 0, 0, 0, 0]⟩,
   ⟨"classes.dex", false, []⟩,
   ⟨"lib/arm64-v8a/libmain.so", false, []⟩,
   ⟨"META-INF/CERT.RSA", false, []⟩,
   ⟨"META-INF/CERT.SF", false, []⟩]

/-- An IPA archive with files under `Payload/Test.app/` but no
`Payload/<name>.app/` directory entry itself. -/
def c10ZipNoDir : List ZEntry :=
  [⟨"Payload/Test.app/Info.plist", false, []⟩]

/-- An IPA archive with the `Payload/Test.app/` directory entry. -/
def c10ZipWithDir : List ZEntry :=
  [⟨"Payload/Test.app/", true, []⟩,
   ⟨"Payload/Test.app/Info.plist", false, []⟩]

/-- The fields of the S2 manifest's top-level `XmlNode` message, as
produced by `readFields s2ProtoManifest 0 33`. -/
def s2TopFields : ProtoFields := [(1, 2, .slice 2 31)]

/-- The fields of the S2 manifest's `XmlElement` message, as produced by
`readFields s2ProtoManifest 2 31`. -/
def s2ElemFields : ProtoFields := [(3, 2, .slice 4 8), (4, 2, .slice 14 19)]

/-- The element the proto walker builds from the S2 manifest. -/
def s2Element : Element :=
  .mk (.str "manifest") [("versionCode", .int 42)] []
    [⟨.null, .str "versionCode", .int 42, none, none⟩]

/-! ## Theorems -/

/-- The decoder's cache never contains an index that is still being
resolved, so the self-referencing array of `cyclicBplist` re-enters
`_parseObject` for index 0 with the cache still empty, for ever:
at every fuel bound the embedded recursion runs out of fuel without
producing a value, and without ever extending the cache. -/
theorem bplistCycleAux (fuel : Nat) :
    bpParseObject cyclicBplist [8] 1 fuel [] 0 = (none, []) := by
  induction fuel with
  | zero => simp [bpParseObject]
  | succ n ih =>
    simp only [cyclicBplist] at ih ⊢
    rw [bpParseObject]
    simp only [memoLookup, List.find?, bpGetCount, readBE, byteAt]
    norm_num
    rw [ bpParseRefs.eq_def]
    simp only [readBE, byteAt, List.range_succ, List.range_zero, List.foldl,
      List.getD]
    norm_num
    rw [ih]

/-- C1: the claim says `_parseObject` never re-descends into an index
that is already being resolved and that decoding a cyclic file
terminates because the decoder memoizes per index.  The code memoizes an
index only **after** its value is fully parsed, so an object that
references itself is re-entered before any cache entry exists: on
`cyclicBplist` (object 0 = array whose single element ref is 0) the
decode exceeds every fuel bound — the JS decoder recurses without bound
instead of terminating. -/
theorem c1_bplist_cycle_unbounded_recursion (fuel : Nat) :
    bplistParse fuel cyclicBplist = .ok none := by
  have h := bplistCycleAux fuel
  simp only [cyclicBplist] at h ⊢
  unfold bplistParse
  rw [if_neg (by decide)]
  simp only [readBE, byteAt, List.range_succ, List.range_zero, List.foldl,
    List.getD, List.map]
  norm_num
  rw [h]

/-- C2: in `_decodePixels` with RGBA input (bpp = 4), every pixel with
stored channels B, G, R, A and `0 < A < 255` is converted to
`min(255, round(C*255/A))` for each colour channel (`jsRoundDiv` is the
exact integer form of `Math.round` here) with the alpha preserved —
stated for the per-pixel conversion the decoder applies at every pixel,
and for a whole single-pixel image. -/
theorem c2_unpremultiply_rgba :
    (∀ B G R A : Nat, 0 < A → A < 255 →
      bgraToRgba 4 B G R A =
        [min 255 (jsRoundDiv (R * 255) A), min 255 (jsRoundDiv (G * 255) A),
         min 255 (jsRoundDiv (B * 255) A), A]) ∧
    (∀ B G R A : Nat, 0 < A → A < 255 →
      decodePixels [0, B, G, R, A] 1 1 4 =
        [min 255 (jsRoundDiv (R * 255) A), min 255 (jsRoundDiv (G * 255) A),
         min 255 (jsRoundDiv (B * 255) A), A]) := by
  constructor
  · intro B G R A h1 h2
    unfold bgraToRgba
    rw [if_neg (by omega), if_pos (by omega)]
  · intro B G R A h1 h2
    simp only [decodePixels, decodeRows, unfilterRow, unfilterRowGo, rowPixels,
      unfilterByte, bgraToRgba, byteAt, List.getD, List.replicate]
    norm_num
    rw [if_neg (by omega), if_pos (by omega)]

/-- C2 witness: the single stored pixel BGRA (80, 80, 80, 128) decodes
to RGBA (159, 159, 159, 128). -/
theorem c2_unpremultiply_rgba_witness :
    0 < 128 ∧ 128 < 255 ∧
    decodePixels [0, 80, 80, 80, 128] 1 1 4 = [159, 159, 159, 128] := by
  refine ⟨by decide, by decide, ?_⟩
  rw [c2_unpremultiply_rgba.2 80 80 80 128 (by decide) (by decide)]
  rfl

/-- The child loop of the S2 element is empty. -/
theorem s2ChildrenEval : protoChildrenGo s2ProtoManifest 34 [] [] = .ok ([], []) := by
  rw [protoChildrenGo]

/-- Walking the S2 `XmlElement` fields yields the manifest element with
`versionCode ↦ 42`. -/
theorem s2ElementEval :
    protoXmlElement s2ProtoManifest 35 [] s2ElemFields = .ok (s2Element, []) := by
  rw [protoXmlElement]
  have h1 : protoNsDecls s2ProtoManifest [] (getField s2ElemFields 1) = .ok [] := by
    rfl
  have h2 : pStr s2ProtoManifest s2ElemFields 3 = .ok (some "manifest") := by rfl
  have h3 : protoAttrsGo s2ProtoManifest [] [] [] (getField s2ElemFields 4) =
      .ok ([("versionCode", .int 42)],
        [⟨.null, .str "versionCode", .int 42, none, none⟩]) := by rfl
  have h4 : protoChildrenGo s2ProtoManifest 34 [] (getField s2ElemFields 5) =
      .ok ([], []) := s2ChildrenEval
  simp only [h1, h2, h3, bind, Except.bind, h4]
  rfl

/-- Walking the S2 `XmlNode` fields yields the manifest element. -/
theorem s2NodeEval :
    protoXmlNode s2ProtoManifest 35 [] s2TopFields = .ok (some s2Element, []) := by
  rw [protoXmlNode]
  have h0 : firstEntry s2TopFields 1 = some (2, .slice 2 31) := by rfl
  rw [h0]
  have h1 : readFields s2ProtoManifest 2 31 = .ok s2ElemFields := by rfl
  simp only [h1, bind, Except.bind, s2ElementEval]

/-- C3: per attribute, the raw string of field 3 is computed first and
the compiled item of field 6, when present and not decoding to
`undefined`, overrides it (a compiled `null` does override); when the
item decodes to `undefined` — in particular when the `Primitive` message
carries none of the recognised kinds (int_dec 6, int_hex 7, boolean 8,
float 3, null 1) — the attribute keeps the raw string, or `null` when
field 3 is absent.  On the concrete S2 manifest (attribute
`versionCode` with compiled item → Primitive → int_dec varint 42) the
parsed element's attribute map holds the integer 42, not a string. -/
theorem c3_compiled_item_precedence :
    (∀ (bytes : List Nat) (af sub : ProtoFields) (off len : Nat)
      (typed : JsVal) (raw : Option String),
      firstEntry af 6 = some (2, .slice off len) →
      readFields bytes off len = .ok sub →
      pItem bytes sub = .ok typed →
      pStr bytes af 3 = .ok raw →
      protoAttrValue bytes af =
        .ok (if typed ≠ .undefVal then typed else optToJs raw)) ∧
    (∀ pf : ProtoFields,
      (∀ v, firstEntry pf 6 ≠ some (0, PVal.n v)) →
      (∀ v, firstEntry pf 7 ≠ some (0, PVal.n v)) →
      (∀ v, firstEntry pf 8 ≠ some (0, PVal.n v)) →
      (∀ v, firstEntry pf 3 ≠ some (5, PVal.n v)) →
      getField pf 1 = [] →
      pPrimitive pf = .undefVal) ∧
    ((protoParse s2ProtoManifest).map (fun o => o.map
      (fun e => jsGet e.attributes "versionCode")) =
      .ok (some (JsVal.int 42))) := by
  refine ⟨?_, ?_, ?_⟩
  · intro bytes af sub off len typed raw h6 hsub hitem hraw
    simp only [protoAttrValue, hraw, h6, hsub, hitem, bind, Except.bind]
    split_ifs <;> rfl
  · intro pf h6 h7 h8 h3 h1
    unfold pPrimitive
    split
    · rename_i v heq; exact absurd heq (h6 v)
    · split
      · rename_i v heq; exact absurd heq (h7 v)
      · split
        · rename_i v heq; exact absurd heq (h8 v)
        · split
          · rename_i v heq; exact absurd heq (h3 v)
          · rw [if_neg (by simp [h1])]
  · have h0 : readFields s2ProtoManifest 0 s2ProtoManifest.length =
        .ok s2TopFields := by rfl
    simp only [protoParse, h0, bind, Except.bind]
    have h1 : protoXmlNode s2ProtoManifest (s2ProtoManifest.length + 2) []
        s2TopFields = .ok (some s2Element, []) := s2NodeEval
    rw [h1]
    rfl

/-- C3 witness: on the S2 attribute fields the compiled item decodes to
the integer 42 and overrides the (absent) raw string. -/
theorem c3_compiled_item_precedence_witness :
    protoAttrValue s2ProtoManifest s2AttrFields = .ok (JsVal.int 42) := by
  have h := c3_compiled_item_precedence.1 s2ProtoManifest s2AttrFields
    [(7, 2, .slice 31 2)] 29 4 (.int 42) none rfl rfl rfl rfl
  simpa using h

/-- C4: `_isLauncher` marks an activity as launcher **iff** some
`intent-filter` child has both an `action` child whose `android:name`
is `android.intent.action.MAIN` and a `category` child whose
`android:name` is `android.intent.category.LAUNCHER`; and on the
two-activity fixture where only the second satisfies this, the
projector emits `isLauncher = false` then `true`. -/
theorem c4_launcher_detection :
    (∀ activity : Element, isLauncher activity = true ↔
      ∃ f ∈ activity.children, f.tag = JsVal.str "intent-filter" ∧
        (∃ a ∈ f.children, a.tag = JsVal.str "action" ∧
          jsGet a.attributes "android:name" =
            JsVal.str "android.intent.action.MAIN") ∧
        (∃ c ∈ f.children, c.tag = JsVal.str "category" ∧
          jsGet c.attributes "android:name" =
            JsVal.str "android.intent.category.LAUNCHER")) ∧
    (extractManifest c4ManifestTree (apkInit "app.apk" 0 0)).activities =
      [⟨.str ".A1", false⟩, ⟨.str ".A2", true⟩] := by
  constructor
  · intro activity
    simp only [isLauncher, childrenBy, List.any_eq_true, List.mem_filter,
      Bool.and_eq_true, decide_eq_true_eq]
    constructor
    · rintro ⟨f, ⟨hf, htag⟩, ⟨a, ⟨ha, hatag⟩, haname⟩, ⟨c, ⟨hc, hctag⟩, hcname⟩⟩
      exact ⟨f, hf, htag, ⟨a, ha, hatag, haname⟩, ⟨c, hc, hctag, hcname⟩⟩
    · rintro ⟨f, hf, htag, ⟨a, ha, hatag, haname⟩, ⟨c, hc, hctag, hcname⟩⟩
      exact ⟨f, ⟨hf, htag⟩, ⟨a, ⟨ha, hatag⟩, haname⟩, ⟨c, ⟨hc, hctag⟩, hcname⟩⟩
  · rfl

/-- C5 counterexample: on the two-byte buffer `03 00` — whose first
16-bit little-endian word is 0x0003 — `parse` throws a `RangeError`
from the `DataView` read of the header-size word, so it neither returns
a tree nor throws `NotAxml`; the claim that parse never throws anything
but `NotAxml` is false. -/
theorem c5_axml_truncated_throws_rangeerror :
    axmlParse [0x03, 0x00] = .error AxmlErr.rangeError := by rfl

/-- C5 (amended): for every buffer whose first 16-bit LE word is 0x0003
the chunk loop terminates (the cursor strictly advances to
`chunkStart + chunkSize ≥ chunkStart + 8` each iteration, which is the
embedded loop's termination measure) and parse never throws `NotAxml`:
it returns the partial tree, or throws a `RangeError` when a header or
chunk read crosses the end of the buffer. -/
theorem c5_axml_no_notaxml_on_magic_match (bytes : List Nat)
    (hmagic : byteAt bytes 0 + byteAt bytes 1 * 256 = 3) :
    axmlParse bytes ≠ .error AxmlErr.notAxml := by
  intro heq
  unfold axmlParse at heq
  revert heq
  split
  · rename_i t _ fileSize ht _ _
    have : t = 3 := by
      unfold getU16LE at ht
      split at ht
      · simpa [hmagic] using ht.symm
      · exact absurd ht (by simp)
    rw [if_neg (by omega)]
    split <;> simp
  · simp

/-- C5 witness: a header-only AXML buffer (type 0x0003, declared file
size 0x40) satisfies the magic hypothesis and does not produce
`NotAxml`. -/
theorem c5_axml_no_notaxml_witness :
    byteAt [3, 0, 8, 0, 64, 0, 0, 0] 0 + byteAt [3, 0, 8, 0, 64, 0, 0, 0] 1 * 256 = 3 ∧
    axmlParse [3, 0, 8, 0, 64, 0, 0, 0] ≠ .error AxmlErr.notAxml :=
  ⟨by decide, c5_axml_no_notaxml_on_magic_match [3, 0, 8, 0, 64, 0, 0, 0] (by decide)⟩

/-- C6: `_str(index)` resolves a negative or too-large string-pool index
to `null` (never a thrown error — the function is total), an in-range
index to the pooled string; and a string-typed attribute value
(`resolveValue` with `TYPE_STRING`) goes through exactly this guard. -/
theorem c6_string_pool_index_guard (strings : List String) (i : Int) :
    ((i < 0 ∨ (strings.length : Int) ≤ i) → axmlStr strings i = .null) ∧
    (0 ≤ i → i < (strings.length : Int) →
      axmlStr strings i = .str (strings.getD i.toNat "")) ∧
    (∀ data : Nat, axmlResolveValue strings 0x03 data =
      axmlStr strings (data : Int)) := by
  refine ⟨fun h => ?_, fun h1 h2 => ?_, fun data => ?_⟩
  · unfold axmlStr
    rw [if_pos]
    omega
  · unfold axmlStr
    rw [if_neg]
    omega
  · unfold axmlResolveValue
    rw [if_pos rfl]

/-- C6 witness: with the two-string pool `["a", "b"]`, index 5 resolves
to `null` and index 1 to the pooled string `"b"`. -/
theorem c6_string_pool_index_guard_witness :
    axmlStr ["a", "b"] 5 = .null ∧ axmlStr ["a", "b"] 1 = .str "b" :=
  ⟨(c6_string_pool_index_guard ["a", "b"] 5).1 (by decide),
   (c6_string_pool_index_guard ["a", "b"] 1).2.1 (by decide) (by decide)⟩

/-- C7 (amended): for every object whose marker's high nibble is not a
recognised type (7, 9, 11, 14 or 15), `_parseObject` yields JS
`undefined` (the `default` case) and memoizes it — a nullish value, but
not the same JS value as `null`. -/
theorem c7_unknown_marker_yields_undef (bytes offsets : List Nat)
    (refSize fuel : Nat) (memo : List (Nat × PValue)) (index off : Nat)
    (hmemo : memoLookup memo index = none)
    (hoff : offsets[index]? = some off)
    (htype : byteAt bytes off / 16 = 7 ∨ byteAt bytes off / 16 = 9 ∨
      byteAt bytes off / 16 = 11 ∨ byteAt bytes off / 16 = 14 ∨
      byteAt bytes off / 16 = 15) :
    (bpParseObject bytes offsets refSize (fuel + 1) memo index).1 =
      some PValue.undefVal := by
  rw [bpParseObject]
  obtain h | h | h | h | h := htype <;> simp [hmemo, hoff, h]

/-- C7 witness: the unknown marker `0x70` of `unknownMarkerBplist` at
offset 8 yields `undefined`. -/
theorem c7_unknown_marker_yields_undef_witness :
    (bpParseObject unknownMarkerBplist [8] 1 1 [] 0).1 = some PValue.undefVal :=
  c7_unknown_marker_yields_undef unknownMarkerBplist [8] 1 0 [] 0 8 rfl rfl
    (by decide)

/-- C7 counterexample: the bplist whose only object has marker `0x70`
(unrecognised high nibble 7) decodes to JS `undefined` — the switch's
`default` branch — which is a different JS value from the `null` that
`_parseSimple` produces; the claim that an unknown marker yields the
Null value is false as stated. -/
theorem c7_unknown_marker_not_null :
    bplistParse 3 unknownMarkerBplist = .ok (some PValue.undefVal) ∧
    PValue.undefVal ≠ PValue.null := by
  have h : (bpParseObject unknownMarkerBplist [8] 1 3 [] 0).1 =
      some PValue.undefVal := by
    rw [show (3 : Nat) = 2 + 1 from rfl, bpParseObject]
    simp [memoLookup, byteAt, unknownMarkerBplist]
  constructor
  · simp only [unknownMarkerBplist] at h ⊢
    unfold bplistParse
    rw [if_neg (by decide)]
    simp only [readBE, byteAt, List.range_succ, List.range_zero, List.foldl,
      List.getD, List.map]
    norm_num
    rw [h]
  · exact fun h => PValue.noConfusion h

/-- C8: `_paeth(a, b, c)` returns a value among `a`, `b`, `c` whose
absolute distance from `p = a + b - c` is minimal, and ties break in
the order `a` before `b` before `c`: `a` is returned whenever its
distance is no larger than both others, `b` whenever it beats `a`
strictly and `c` non-strictly, and `c` only when it beats both
strictly. -/
theorem c8_paeth_minimal_tiebreak (a b c : Nat) :
    (paeth a b c = a ∨ paeth a b c = b ∨ paeth a b c = c) ∧
    (((a : Int) + b - c - paeth a b c).natAbs ≤
        ((a : Int) + b - c - a).natAbs ∧
      ((a : Int) + b - c - paeth a b c).natAbs ≤
        ((a : Int) + b - c - b).natAbs ∧
      ((a : Int) + b - c - paeth a b c).natAbs ≤
        ((a : Int) + b - c - c).natAbs) ∧
    (((a : Int) + b - c - a).natAbs ≤ ((a : Int) + b - c - b).natAbs →
      ((a : Int) + b - c - a).natAbs ≤ ((a : Int) + b - c - c).natAbs →
      paeth a b c = a) ∧
    (((a : Int) + b - c - b).natAbs < ((a : Int) + b - c - a).natAbs →
      ((a : Int) + b - c - b).natAbs ≤ ((a : Int) + b - c - c).natAbs →
      paeth a b c = b) ∧
    (((a : Int) + b - c - c).natAbs < ((a : Int) + b - c - a).natAbs →
      ((a : Int) + b - c - c).natAbs < ((a : Int) + b - c - b).natAbs →
      paeth a b c = c) := by
  simp only [paeth]
  split_ifs with h1 h2 <;>
    refine ⟨by tauto, ⟨by omega, by omega, by omega⟩, ?_, ?_, ?_⟩ <;>
    intro hx hy <;> first | rfl | omega

/-- C8 witness: at `(a, b, c) = (10, 4, 6)` the distances from
`p = 8` are `(2, 4, 2)` — a tie between `a` and `c` — and `a` wins. -/
theorem c8_paeth_minimal_tiebreak_witness : paeth 10 4 6 = 10 :=
  (c8_paeth_minimal_tiebreak 10 4 6).2.2.1 (by decide) (by decide)

/-- The icon-extraction step only writes the `icon`/`iconPath` fields:
every other field of the info record passes through unchanged. -/
theorem apkExtractIcon_preserves (zip : List ZEntry) (i : BuildInfo) :
    ((apkExtractIcon zip i).2).manifestError = i.manifestError ∧
    ((apkExtractIcon zip i).2).fileSize = i.fileSize ∧
    ((apkExtractIcon zip i).2).totalFiles = i.totalFiles ∧
    ((apkExtractIcon zip i).2).architectures = i.architectures ∧
    ((apkExtractIcon zip i).2).signingInfo = i.signingInfo := by
  unfold apkExtractIcon apkIconScan
  repeat' split
  all_goals simp

/-- C9: when `AndroidManifest.xml` is present but its AXML decode
throws, `APKParser.parse` still returns a BuildInfo: the error is
recorded as `_manifestError` and the archive-level fields — file size,
total entry count, dex count, native-library architectures, signing
info — are computed exactly as in the success path. -/
theorem c9_manifest_error_nonfatal (fileName : String) (fileSize : Nat)
    (zip : List ZEntry) (mbytes : List Nat) (e : AxmlErr)
    (hentry : zipFile zip "AndroidManifest.xml" = some mbytes)
    (herr : axmlParse mbytes = .error e) :
    (apkParse fileName fileSize zip).manifestError = some e ∧
    (apkParse fileName fileSize zip).fileSize = fileSize ∧
    (apkParse fileName fileSize zip).totalFiles = (zipNames zip).length ∧
    (apkParse fileName fileSize zip).dexCount = apkDexCount zip ∧
    (apkParse fileName fileSize zip).architectures = apkArchitectures zip ∧
    (apkParse fileName fileSize zip).signingInfo = apkSigningInfo zip := by
  have hp := apkExtractIcon_preserves zip
    { apkInit fileName fileSize (zipNames zip).length with
        manifestError := some e }
  simp only [apkParse, hentry, herr]
  cases hsig : apkSigningInfo zip <;> cases harch : apkArchitectures zip <;>
    simp_all [apkInit]

/-- C9 witness: on `c9Zip` (whose manifest's first word is 0, so decode
throws `NotAxml`), parse records the error and still reports one dex
file, the `arm64-v8a` architecture and the RSA signing entry. -/
theorem c9_manifest_error_nonfatal_witness :
    (apkParse "app.apk" 9 c9Zip).manifestError = some AxmlErr.notAxml ∧
    (apkParse "app.apk" 9 c9Zip).fileSize = 9 ∧
    (apkParse "app.apk" 9 c9Zip).totalFiles = (zipNames c9Zip).length ∧
    (apkParse "app.apk" 9 c9Zip).dexCount = apkDexCount c9Zip ∧
    (apkParse "app.apk" 9 c9Zip).architectures = apkArchitectures c9Zip ∧
    (apkParse "app.apk" 9 c9Zip).signingInfo = apkSigningInfo c9Zip :=
  c9_manifest_error_nonfatal "app.apk" 9 c9Zip [0, 0, 0, 0, 0, 0, 0, 0]
    AxmlErr.notAxml rfl rfl

/-- C10: `IPAParser.parse` throws (`No .app bundle found inside IPA`)
exactly when no entry name matches `Payload/<name>.app/`
(case-insensitive, one slash-free segment) — even if files exist under
such a path — and no BuildInfo is returned; when some entry does match,
the parse always returns a BuildInfo (manifest, icon and provisioning
failures are caught internally and cannot abort it). -/
theorem c10_app_bundle_gate (fileName : String) (fileSize : Nat)
    (zip : List ZEntry) (xmlReader : String → Option PValue)
    (loadIcon : String → Option String) :
    ((∀ f ∈ zipNames zip, isAppDirName f = false) →
      ipaParse fileName fileSize zip xmlReader loadIcon = .error ()) ∧
    ((∃ f ∈ zipNames zip, isAppDirName f = true) →
      ∃ info, ipaParse fileName fileSize zip xmlReader loadIcon = .ok info) := by
  constructor
  · intro h
    have hnone : (zipNames zip).find? isAppDirName = none := by
      rw [List.find?_eq_none]
      intro x hx
      simp [h x hx]
    simp only [ipaParse, hnone]
  · rintro ⟨f, hf, hp⟩
    cases hfind : (zipNames zip).find? isAppDirName with
    | none =>
      have := List.find?_eq_none.mp hfind f hf
      simp [hp] at this
    | some appDir =>
      simp only [ipaParse, hfind]
      exact ⟨_, rfl⟩

/-- C10 witness: the archive with only `Payload/Test.app/Info.plist`
(no directory entry) makes the parse throw, while the archive that also
lists the `Payload/Test.app/` directory parses to a BuildInfo. -/
theorem c10_app_bundle_gate_witness :
    ipaParse "a.ipa" 1 c10ZipNoDir (fun _ => none) (fun _ => none) =
      .error () ∧
    ∃ info, ipaParse "a.ipa" 1 c10ZipWithDir (fun _ => none) (fun _ => none) =
      .ok info :=
  ⟨(c10_app_bundle_gate "a.ipa" 1 c10ZipNoDir (fun _ => none)
      (fun _ => none)).1 (by decide),
   (c10_app_bundle_gate "a.ipa" 1 c10ZipWithDir (fun _ => none)
      (fun _ => none)).2 ⟨"Payload/Test.app/", by simp [c10ZipWithDir, zipNames],
        by decide⟩⟩
